import Mathlib

/-!
Verification development for the i2p-rs SAM client library.

The Rust sources are embedded shallowly: pure fragments become Lean
functions over `List Char` / `String` / `Nat`, fallible fragments return
`Except I2PError _`, and the effectful session watcher is modelled by
passing the outcomes of its socket calls explicitly.  Machine integers
(`u8`, `u16`, `u32`, `u64`) are modelled as `Nat` with explicit `% 2 ^ w`
where overflow matters (only inside SHA-256); `i8` is modelled as `Int`.
-/

/-! ## Generic helpers used by several embedded modules -/

/-- Split a list at every occurrence of the separator, keeping empty
segments, mirroring Rust `str::split(char)`: `"a b "` gives
`["a", "b", ""]` and `""` gives `[""]`. -/
def splitChar (sep : Char) : List Char → List (List Char)
  | [] => [[]]
  | c :: cs =>
    if c = sep then [] :: splitChar sep cs
    else
      match splitChar sep cs with
      | [] => [[c]]
      | f :: r => (c :: f) :: r

/-- Worker for `chunkList`, structurally recursive on a fuel argument so
that the kernel can evaluate it; one unit of fuel is spent per chunk, and
`fuel ≥ length` always suffices for chunks of positive size. -/
def chunkListGo (n : Nat) : Nat → List α → List (List α)
  | _, [] => []
  | 0, _ :: _ => []
  | fuel + 1, c :: cs => (c :: cs.take n) :: chunkListGo n fuel (cs.drop n)

/-- Chunk a list into consecutive pieces of length `n + 1` (the final
piece may be shorter); `chunkList 0 _` is empty. -/
def chunkList : Nat → List α → List (List α)
  | 0, _ => []
  | n + 1, l => chunkListGo n l.length l

/-- Big-endian bytes of `x`, exactly `n` bytes (most significant first). -/
def beBytes (n : Nat) (x : Nat) : List Nat :=
  (List.range n).map (fun i => x / 256 ^ (n - 1 - i) % 256)

/-- Byte-lexicographic order on ASCII strings represented as char lists;
this is the order Rust `sort_unstable` uses on `&str` for the ASCII
option tokens the serialiser produces. -/
def lexLe : List Char → List Char → Bool
  | [], _ => true
  | a :: as, b :: bs =>
    if a.toNat < b.toNat then true
    else if b.toNat < a.toNat then false
    else lexLe as bs
  | _ :: _, [] => false

/-- Insertion sort by `lexLe`; yields the sorted permutation, hence the same
list Rust `Vec::sort_unstable` computes (equal elements are identical
strings, so stability is immaterial). -/
def insertSorted (x : List Char) : List (List Char) → List (List Char)
  | [] => [x]
  | y :: ys => if lexLe x y then x :: y :: ys else y :: insertSorted x ys

/-- Sort a token list with `insertSorted`. -/
def sortTokens : List (List Char) → List (List Char)
  | [] => []
  | x :: xs => insertSorted x (sortTokens xs)

/-- Worker for `dedupConsec`: drop elements equal to the previous kept
one. -/
def dedupGo (prev : List Char) : List (List Char) → List (List Char)
  | [] => []
  | b :: r => if b = prev then dedupGo prev r else b :: dedupGo b r

/-- Remove consecutive duplicates, keeping the first of each run, mirroring
Rust `Vec::dedup`. -/
def dedupConsec : List (List Char) → List (List Char)
  | [] => []
  | a :: r => a :: dedupGo a r

/-- Rust `char::is_whitespace`: the Unicode White_Space code points. -/
def rustIsWhitespace (c : Char) : Bool :=
  c.toNat ∈ [0x09, 0x0A, 0x0B, 0x0C, 0x0D, 0x20, 0x85, 0xA0, 0x1680,
    0x2000, 0x2001, 0x2002, 0x2003, 0x2004, 0x2005, 0x2006, 0x2007,
    0x2008, 0x2009, 0x200A, 0x2028, 0x2029, 0x202F, 0x205F, 0x3000]

/-- Rust `str::trim`: drop whitespace from both ends. -/
def rustTrim (s : List Char) : List Char :=
  ((s.dropWhile rustIsWhitespace).reverse.dropWhile rustIsWhitespace).reverse

/-- Boolean substring test: does `pat` occur contiguously inside `s`? -/
def containsSub (pat s : List Char) : Bool :=
  s.tails.any (fun t => pat.isPrefixOf t)

/-- Rust `bool` rendered by `Display` (`format!("{b}")`). -/
def boolStr (b : Bool) : String := if b then "true" else "false"

/-! ## src/error.rs — the typed error enum

The canonical typed error enum referenced by `src/sam.rs`,
`src/net/i2p.rs` and `src/session_watcher.rs` as `crate::error::I2PError`
/ `ErrorKind`.  Its constructors are assembled from the `ErrorKind` enum
in `src/error.rs` together with the constructors applied at the use
sites in `src/sam.rs` and `src/net/i2p.rs`.  `SessionRecreated` is used
by `src/session_watcher.rs` but declared in no file under `src`; that
constructor is modelled from the spec (§7: "SessionRecreated — soft
signal from the watcher that the caller must retry"). -/

inductive I2PError where
  | IoError (msg : String)
  | MessageParsing
  | UnresolvableAddress
  | SAMInvalidMessage (msg : String)
  | SAMCantReachPeer (msg : String)
  | SAMKeyNotFound (msg : String)
  | SAMPeerNotFound (msg : String)
  | SAMDuplicatedDest (msg : String)
  | SAMInvalidKey (msg : String)
  | SAMInvalidId (msg : String)
  | SAMTimeout (msg : String)
  | SAMI2PError (msg : String)
  | BadAddressEncoding (msg : String)
  | SessionRecreated
deriving DecidableEq

/-! ## data_encoding specifications from src/net/i2p.rs

`BASE32_I2P` and `BASE64_I2P` are `data_encoding::Specification`s built in
`src/net/i2p.rs` (lines 13–31): base-32 with symbols
`abcdefghijklmnopqrstuvwxyz234567` and no padding; base-64 with symbols
`A–Z a–z 0–9 - ~` and padding `'='`.  The functions below model the
`data_encoding` crate's `encode`/`decode` for those two specifications
(MSB-first bit order, canonical padding, trailing bits checked — the
crate's defaults). -/

def base32_i2p_symbols : List Char := "abcdefghijklmnopqrstuvwxyz234567".data

def base64_i2p_symbols : List Char :=
  "ABCDEFGHIJKLMNOPQRSTUVWXYZabcdefghijklmnopqrstuvwxyz0123456789-~".data

/-- Index of a character in the base-64 alphabet, i.e. its 6-bit value. -/
def b64SymIndex (c : Char) : Option Nat :=
  base64_i2p_symbols.indexOf? c

/-- The 8 bits of a byte, most significant first. -/
def byteBits (b : Nat) : List Bool :=
  (List.range 8).map (fun i => b / 2 ^ (7 - i) % 2 = 1)

/-- Value of a bit group of length ≤ 5, padded on the right with zero bits
(the RFC 4648 rule for the final, partial group). -/
def bitsVal5 (g : List Bool) : Nat :=
  (g ++ List.replicate (5 - g.length) false).foldl (fun a b => 2 * a + cond b 1 0) 0

/-- data_encoding `BASE32_I2P.encode`: 5-bit groups of the byte stream,
MSB first, lowercase alphabet, no padding characters. -/
def base32_i2p_encode (bytes : List Nat) : List Char :=
  (chunkList 5 (bytes.map byteBits).flatten).map
    (fun g => base32_i2p_symbols.getD (bitsVal5 g) 'a')

/-- Decode a non-final base-64 quantum of four symbols into three bytes. -/
def b64DecodeFullBlock : List Char → Option (List Nat)
  | [c1, c2, c3, c4] => do
    let v1 ← b64SymIndex c1
    let v2 ← b64SymIndex c2
    let v3 ← b64SymIndex c3
    let v4 ← b64SymIndex c4
    pure [v1 * 4 + v2 / 16, v2 % 16 * 16 + v3 / 4, v3 % 4 * 64 + v4]
  | _ => none

/-- Decode the final base-64 quantum: four symbols, or two or three symbols
completed by `'='` padding; the unused trailing bits must be zero
(`check_trailing_bits`, the data_encoding default). -/
def b64DecodeLastBlock : List Char → Option (List Nat)
  | [c1, c2, c3, c4] =>
    if c4 = '=' then
      if c3 = '=' then do
        let v1 ← b64SymIndex c1
        let v2 ← b64SymIndex c2
        if v2 % 16 = 0 then pure [v1 * 4 + v2 / 16] else none
      else do
        let v1 ← b64SymIndex c1
        let v2 ← b64SymIndex c2
        let v3 ← b64SymIndex c3
        if v3 % 4 = 0 then pure [v1 * 4 + v2 / 16, v2 % 16 * 16 + v3 / 4] else none
    else b64DecodeFullBlock [c1, c2, c3, c4]
  | _ => none

/-- Decode a sequence of four-character quanta; only the last may carry
padding. -/
def b64DecodeBlocks : List (List Char) → Option (List Nat)
  | [] => some []
  | [b] => b64DecodeLastBlock b
  | b :: bs => do
    let h ← b64DecodeFullBlock b
    let t ← b64DecodeBlocks bs
    pure (h ++ t)

/-- data_encoding `BASE64_I2P.decode`: the input length must be a multiple
of four (canonical padding), every character must be an alphabet symbol or
well-placed `'='` padding, and trailing bits must be zero. -/
def base64_i2p_decode (s : List Char) : Option (List Nat) :=
  if s.length % 4 = 0 then b64DecodeBlocks (chunkList 4 s) else none

/-! ## The sha2 crate's SHA-256, used by `I2pAddr::from_b64`

Straight FIPS 180-4 over byte lists; 32-bit words are `Nat` reduced
explicitly `% 2 ^ 32`. -/

def w32 : Nat := 2 ^ 32

def rotr32 (n x : Nat) : Nat := (x >>> n ||| x <<< (32 - n)) % w32

def not32 (x : Nat) : Nat := 0xffffffff - x

def sha256K : List Nat :=
  [1116352408, 1899447441, 3049323471, 3921009573, 961987163,
   1508970993, 2453635748, 2870763221, 3624381080, 310598401,
   607225278, 1426881987, 1925078388, 2162078206, 2614888103,
   3248222580, 3835390401, 4022224774, 264347078, 604807628,
   770255983, 1249150122, 1555081692, 1996064986, 2554220882,
   2821834349, 2952996808, 3210313671, 3336571891, 3584528711,
   113926993, 338241895, 666307205, 773529912, 1294757372,
   1396182291, 1695183700, 1986661051, 2177026350, 2456956037,
   2730485921, 2820302411, 3259730800, 3345764771, 3516065817,
   3600352804, 4094571909, 275423344, 430227734, 506948616,
   659060556, 883997877, 958139571, 1322822218, 1537002063,
   1747873779, 1955562222, 2024104815, 2227730452, 2361852424,
   2428436474, 2756734187, 3204031479, 3329325298]

def sha256H0 : List Nat :=
  [1779033703, 3144134277, 1013904242, 2773480762,
   1359893119, 2600822924, 528734635, 1541459225]

/-- Merkle–Damgård padding: `0x80`, zero bytes to 56 mod 64, then the
bit length as eight big-endian bytes. -/
def sha256Pad (msg : List Nat) : List Nat :=
  let l := msg.length
  let zeros := (119 - l % 64) % 64
  msg ++ 0x80 :: List.replicate zeros 0 ++ beBytes 8 (8 * l)

def ssig0 (x : Nat) : Nat := rotr32 7 x ^^^ rotr32 18 x ^^^ (x >>> 3)
def ssig1 (x : Nat) : Nat := rotr32 17 x ^^^ rotr32 19 x ^^^ (x >>> 10)
def bsig0 (x : Nat) : Nat := rotr32 2 x ^^^ rotr32 13 x ^^^ rotr32 22 x
def bsig1 (x : Nat) : Nat := rotr32 6 x ^^^ rotr32 11 x ^^^ rotr32 25 x

/-- Extend a 16-word schedule by `n` further words. -/
def sha256Extend : Nat → List Nat → List Nat
  | 0, ws => ws
  | n + 1, ws =>
    let i := ws.length
    let w := (ssig1 (ws.getD (i - 2) 0) + ws.getD (i - 7) 0 +
      ssig0 (ws.getD (i - 15) 0) + ws.getD (i - 16) 0) % w32
    sha256Extend n (ws ++ [w])

structure Sha256Regs where
  a : Nat
  b : Nat
  c : Nat
  d : Nat
  e : Nat
  f : Nat
  g : Nat
  h : Nat

def sha256Round (r : Sha256Regs) (k w : Nat) : Sha256Regs :=
  let ch := (r.e &&& r.f) ^^^ (not32 r.e &&& r.g)
  let maj := (r.a &&& r.b) ^^^ (r.a &&& r.c) ^^^ (r.b &&& r.c)
  let t1 := (r.h + bsig1 r.e + ch + k + w) % w32
  let t2 := (bsig0 r.a + maj) % w32
  { a := (t1 + t2) % w32, b := r.a, c := r.b, d := r.c,
    e := (r.d + t1) % w32, f := r.e, g := r.f, h := r.g }

def sha256Compress (hs : List Nat) (block : List Nat) : List Nat :=
  let ws0 := (chunkList 4 block).map (fun bs => bs.foldl (fun a b => a * 256 + b) 0)
  let ws := sha256Extend 48 ws0
  let init : Sha256Regs :=
    { a := hs.getD 0 0, b := hs.getD 1 0, c := hs.getD 2 0, d := hs.getD 3 0,
      e := hs.getD 4 0, f := hs.getD 5 0, g := hs.getD 6 0, h := hs.getD 7 0 }
  let r := (ws.zip sha256K).foldl (fun r p => sha256Round r p.2 p.1) init
  [(hs.getD 0 0 + r.a) % w32, (hs.getD 1 0 + r.b) % w32,
   (hs.getD 2 0 + r.c) % w32, (hs.getD 3 0 + r.d) % w32,
   (hs.getD 4 0 + r.e) % w32, (hs.getD 5 0 + r.f) % w32,
   (hs.getD 6 0 + r.g) % w32, (hs.getD 7 0 + r.h) % w32]

/-- SHA-256 digest of a byte list, as 32 bytes. -/
def sha256 (msg : List Nat) : List Nat :=
  let blocks := chunkList 64 (sha256Pad msg)
  ((blocks.foldl sha256Compress sha256H0).map (beBytes 4)).flatten

/-! ## src/net/i2p.rs — the I2P address type -/

/-- Literal suffix `".b32.i2p"` (src/net/i2p.rs line 11). -/
def B32_EXT : String := ".b32.i2p"

/-- An I2P address, as a destination, b32 address or hostname
(src/net/i2p.rs lines 52–55). -/
structure I2pAddr where
  inner : String
deriving DecidableEq

/-- `I2pAddr::new` stores the given string verbatim. -/
def I2pAddr.new (dest : String) : I2pAddr := ⟨dest⟩

/-- `I2pAddr::string` returns the stored string. -/
def I2pAddr.string (a : I2pAddr) : String := a.inner

/-- `I2pAddr::from_b64` (src/net/i2p.rs lines 76–86): decode with
`BASE64_I2P` (mapping a decode error to `BadAddressEncoding(dest)`),
SHA-256 the bytes, `BASE32_I2P`-encode the digest, append `B32_EXT`. -/
def I2pAddr.from_b64 (dest : String) : Except I2PError I2pAddr := do
  let bin_data ←
    match base64_i2p_decode dest.data with
    | some b => Except.ok b
    | none => Except.error (I2PError.BadAddressEncoding dest)
  let b32 := String.mk (base32_i2p_encode (sha256 bin_data)) ++ B32_EXT
  return ⟨b32⟩

/-! ## src/net/addr.rs — socket addresses -/

/-- `I2pSocketAddr` (src/net/addr.rs lines 12–16); `port: u16` is modelled
as `Nat` (no arithmetic is performed on it). -/
structure I2pSocketAddr where
  port : Nat
  dest : I2pAddr
deriving DecidableEq

/-- `I2pSocketAddr::new`. -/
def I2pSocketAddr.new (dest : I2pAddr) (port : Nat) : I2pSocketAddr :=
  { port := port, dest := dest }

/-- `I2pSocketAddr::set_dest` replaces the destination. -/
def I2pSocketAddr.set_dest (a : I2pSocketAddr) (new_dest : I2pAddr) : I2pSocketAddr :=
  { a with dest := new_dest }

/-- `I2pSocketAddr::set_port` replaces the port. -/
def I2pSocketAddr.set_port (a : I2pSocketAddr) (new_port : Nat) : I2pSocketAddr :=
  { a with port := new_port }

/-! ## src/sam_options.rs — SAM / I2CP session options

The structures mirror the Rust ones field for field; `Option` fields stay
`Option`.  Newtype wrappers over `String` are modelled as `String`
abbreviations (their `ToString` impls return the wrapped string
verbatim); `u8`/`u16`/`u32`/`u64` payloads are `Nat`, `i8` is `Int`.
`LeaseSetOfflineExpiration` is `[u8; 4]` rendered through
`String::from_utf8(..).unwrap()`; it is modelled as the decoded `String`
(no claim touches it). -/

abbrev LeaseSetOfflineSignature := String
abbrev LeaseSetEncType := String
abbrev LeaseSetPrivKey := String
abbrev LeaseSetPrivateKey := String
abbrev LeaseSetKey := String
abbrev LeaseSetSecret := String
abbrev LeaseSetTransientPublicKey := String
abbrev LeaseSetSigningPrivateKey := String
abbrev LeaseSetOfflineExpiration := String
abbrev LeaseSetType := Nat
abbrev LeaseSetBlindedType := Nat

/-- Default `LeaseSetEncType` is the literal `"4,0"`
(src/sam_options.rs lines 602–606). -/
def LeaseSetEncType.default : LeaseSetEncType := "4,0"

inductive LeaseSetAuthType where
  | NoPerClient
  | DHPerClient
  | PSKPerClient
deriving DecidableEq

/-- `ToString for LeaseSetAuthType` serialises as `0 | 1 | 2`. -/
def LeaseSetAuthType.string : LeaseSetAuthType → String
  | .NoPerClient => "0"
  | .DHPerClient => "1"
  | .PSKPerClient => "2"

inductive SignatureType where
  | DsaSha1
  | EcdsaSha256P256
  | EcdsaSha384P384
  | EcdsaSha512P21
  | RsaSha256_2048
  | RsaSha384_3072
  | RsaSha512_4096
  | EdDsaSha512Ed25519
  | EdDsaSha512Ed25519ph
  | RedDsaSha512Ed25519
deriving DecidableEq

/-- `ToString for SignatureType` (src/sam_options.rs lines 675–690). -/
def SignatureType.string : SignatureType → String
  | .DsaSha1 => "DSA_SHA1"
  | .EcdsaSha256P256 => "ECDSA_SHA256_P256"
  | .EcdsaSha384P384 => "ECDSA_SHA384_P384"
  | .EcdsaSha512P21 => "ECDSA_SHA512_P521"
  | .RsaSha256_2048 => "RSA_SHA256_2048"
  | .RsaSha384_3072 => "RSA_SHA384_3072"
  | .RsaSha512_4096 => "RSA_SHA512_4096"
  | .EdDsaSha512Ed25519 => "EdDSA_SHA512_Ed25519"
  | .EdDsaSha512Ed25519ph => "EdDSA_SHA512_Ed25519ph"
  | .RedDsaSha512Ed25519 => "RedDSA_SHA512_Ed25519"

inductive MessageReliability where
  | BestEffort
  | None
deriving DecidableEq

/-- `ToString for MessageReliability` serialises as `BestEffort | None`. -/
def MessageReliability.string : MessageReliability → String
  | .BestEffort => "BestEffort"
  | .None => "None"

structure I2CPRouterCryptoOptions where
  low_tag_threshold : Option Nat := none
  ratchet_inbound_tags : Option Nat := none
  ratchet_outbound_tags : Option Nat := none
  tags_to_send : Option Nat := none
deriving DecidableEq

structure I2CPTunnelInboundOptions where
  allow_zero_hop : Option Bool := none
  backup_quantity : Option Nat := none
  ip_restriction : Option Nat := none
  length : Option Nat := none
  length_variance : Option Int := none
  quantity : Option Nat := none
  random_key : Option String := none
deriving DecidableEq

structure I2CPTunnelOutboundOptions where
  allow_zero_hop : Option Bool := none
  backup_quantity : Option Nat := none
  ip_restriction : Option Nat := none
  length : Option Nat := none
  length_variance : Option Int := none
  priority : Option Int := none
  quantity : Option Nat := none
  random_key : Option String := none
deriving DecidableEq

structure I2CPRouterOptions where
  client_message_timeout : Option Nat := none
  crypto_options : Option I2CPRouterCryptoOptions := none
  dont_publish_lease_set : Option Bool := none
  fast_receive : Option Bool := none
  lease_set_auth_type : Option LeaseSetAuthType := none
  lease_set_enc_type : Option LeaseSetEncType := none
  lease_set_offline_expiration : Option LeaseSetOfflineExpiration := none
  lease_set_offline_signature : Option LeaseSetOfflineSignature := none
  lease_set_priv_key : Option LeaseSetPrivKey := none
  lease_set_secret : Option LeaseSetSecret := none
  lease_set_transient_public_key : Option LeaseSetTransientPublicKey := none
  lease_set_type : Option LeaseSetType := none
  message_reliability : Option MessageReliability := none
  username : Option String := none
  password : Option String := none
  inbound : Option I2CPTunnelInboundOptions := none
  outbound : Option I2CPTunnelOutboundOptions := none
  should_bundle_reply_info : Option Bool := none
deriving DecidableEq

structure I2CPClientOptions where
  close_idle_time : Option Nat := none
  close_on_idle : Option Bool := none
  encrypt_lease_set : Option Bool := none
  fast_receive : Option Bool := none
  gzip : Option Bool := none
  lease_set_auth_type : Option LeaseSetAuthType := none
  lease_set_blinded_type : Option LeaseSetBlindedType := none
  lease_set_enc_type : Option LeaseSetEncType := none
  lease_set_key : Option LeaseSetKey := none
  lease_set_private_key : Option LeaseSetPrivateKey := none
  lease_set_secret : Option LeaseSetSecret := none
  lease_set_signing_private_key : Option LeaseSetSigningPrivateKey := none
  message_reliability : Option MessageReliability := none
  reduce_idle_time : Option Nat := none
  reduce_on_idle : Option Bool := none
  reduce_quantity : Option Nat := none
  ssl : Option Bool := none
  tcp_host : Option String := none
  tcp_port : Option Nat := none
deriving DecidableEq

structure I2CPOptions where
  router_options : Option I2CPRouterOptions := none
  client_options : Option I2CPClientOptions := none
deriving DecidableEq

structure SAMOptions where
  from_port : Option Nat := none
  to_port : Option Nat := none
  i2cp_options : Option I2CPOptions := none
  signature_type : SignatureType := .EdDsaSha512Ed25519
deriving DecidableEq

/-- `impl Default for SAMOptions` (src/sam_options.rs lines 232–250): only
the client- and router-side `i2cp.leaseSetEncType` are populated, and
`signature_type` is `EdDSA_SHA512_Ed25519`. -/
def SAMOptions.default : SAMOptions :=
  { to_port := none
    from_port := none
    i2cp_options := some
      { client_options := some { lease_set_enc_type := some LeaseSetEncType.default }
        router_options := some { lease_set_enc_type := some LeaseSetEncType.default } }
    signature_type := .EdDsaSha512Ed25519 }

/-- Render an optional field as `key=value ` appended when present
(each Rust branch pushes `"<key>=<value> "`). -/
def optTok (key : String) (v : Option String) : String :=
  match v with
  | some s => key ++ "=" ++ s ++ " "
  | none => ""

/-- `I2CPRouterCryptoOptions::string` (src/sam_options.rs lines 457–474). -/
def I2CPRouterCryptoOptions.string (o : I2CPRouterCryptoOptions) : String :=
  optTok "crypto.lowTagThreshold" (o.low_tag_threshold.map toString) ++
  optTok "crypto.ratchet.inboundTags" (o.ratchet_inbound_tags.map toString) ++
  optTok "crypto.ratchet.outboundTags" (o.ratchet_outbound_tags.map toString) ++
  optTok "crypto.tagsToSend" (o.tags_to_send.map toString)

/-- `I2CPTunnelInboundOptions::string` (src/sam_options.rs lines 476–502).
Note the `length_variance` branch pushes `inbound.lengthVariance{v} `
with no `=` between key and value, exactly as the source's format string
does. -/
def I2CPTunnelInboundOptions.string (o : I2CPTunnelInboundOptions) : String :=
  optTok "inbound.allowZeroHop" (o.allow_zero_hop.map boolStr) ++
  optTok "inbound.backupQuantity" (o.backup_quantity.map toString) ++
  optTok "inbound.IPRestriction" (o.ip_restriction.map toString) ++
  optTok "inbound.length" (o.length.map toString) ++
  (match o.length_variance with
   | some v => "inbound.lengthVariance" ++ toString v ++ " "
   | none => "") ++
  optTok "inbound.quantity" (o.quantity.map toString) ++
  optTok "inbound.randomKey" o.random_key

/-- `I2CPTunnelOutboundOptions::string` (src/sam_options.rs lines 504–533).
The `length_variance` branch again omits the `=`. -/
def I2CPTunnelOutboundOptions.string (o : I2CPTunnelOutboundOptions) : String :=
  optTok "outbound.allowZeroHop" (o.allow_zero_hop.map boolStr) ++
  optTok "outbound.backupQuantity" (o.backup_quantity.map toString) ++
  optTok "outbound.IPRestriction" (o.ip_restriction.map toString) ++
  optTok "outbound.length" (o.length.map toString) ++
  (match o.length_variance with
   | some v => "outbound.lengthVariance" ++ toString v ++ " "
   | none => "") ++
  optTok "outbound.priority" (o.priority.map toString) ++
  optTok "outbound.quantity" (o.quantity.map toString) ++
  optTok "outbound.randomKey" o.random_key

/-- `I2CPRouterOptions::string` (src/sam_options.rs lines 280–373). -/
def I2CPRouterOptions.string (o : I2CPRouterOptions) : String :=
  optTok "clientMessageTimeout" (o.client_message_timeout.map toString) ++
  (match o.crypto_options with
   | some c => c.string
   | none => "") ++
  optTok "i2cp.dontPublishLeaseSet" (o.dont_publish_lease_set.map boolStr) ++
  optTok "i2cp.fastReceive" (o.fast_receive.map boolStr) ++
  optTok "i2cp.leaseSetAuthType" (o.lease_set_auth_type.map LeaseSetAuthType.string) ++
  optTok "i2cp.leaseSetEncType" o.lease_set_enc_type ++
  optTok "i2cp.leaseSetOfflineExpiration" o.lease_set_offline_expiration ++
  optTok "i2cp.leaseSetPrivKey" o.lease_set_priv_key ++
  optTok "i2cp.leaseSetSecret" o.lease_set_secret ++
  optTok "i2cp.leaseSetTransientPublicKey" o.lease_set_transient_public_key ++
  optTok "i2cp.leaseSetType" (o.lease_set_type.map toString) ++
  optTok "i2cp.messageReliability" (o.message_reliability.map MessageReliability.string) ++
  optTok "i2cp.password" o.password ++
  optTok "i2cp.username" o.username ++
  (match o.inbound with
   | some i => i.string
   | none => "") ++
  (match o.outbound with
   | some i => i.string
   | none => "") ++
  optTok "shouldBundleReplyInfo" (o.should_bundle_reply_info.map boolStr)

/-- `I2CPClientOptions::string` (src/sam_options.rs lines 375–455). -/
def I2CPClientOptions.string (o : I2CPClientOptions) : String :=
  optTok "i2cp.closeIdleTime" (o.close_idle_time.map toString) ++
  optTok "i2cp.closeOnIdle" (o.close_on_idle.map boolStr) ++
  optTok "i2cp.encryptLeaseSet" (o.encrypt_lease_set.map boolStr) ++
  optTok "i2cp.fastReceive" (o.fast_receive.map boolStr) ++
  optTok "i2cp.gzip" (o.gzip.map boolStr) ++
  optTok "i2cp.leaseSetAuthType" (o.lease_set_auth_type.map LeaseSetAuthType.string) ++
  optTok "i2cp.leaseSetBlindedType" (o.lease_set_blinded_type.map toString) ++
  optTok "i2cp.leaseSetEncType" o.lease_set_enc_type ++
  optTok "i2cp.leaseSetKey" o.lease_set_key ++
  optTok "i2cp.leaseSetPrivateKey" o.lease_set_private_key ++
  optTok "i2cp.leaseSetSecret" o.lease_set_secret ++
  optTok "i2cp.leaseSetSigningPrivateKey" o.lease_set_signing_private_key ++
  optTok "i2cp.messageReliability" (o.message_reliability.map MessageReliability.string) ++
  optTok "i2cp.reduceIdleTime" (o.reduce_idle_time.map toString) ++
  optTok "i2cp.reduceOnIdle" (o.reduce_on_idle.map boolStr) ++
  optTok "i2cp.ssl" (o.ssl.map boolStr) ++
  optTok "i2cp.tcp.host" o.tcp_host ++
  optTok "i2cp.tcp.port" (o.tcp_port.map toString)

/-- `I2CPOptions::string` (src/sam_options.rs lines 261–278): router
options first, then client options. -/
def I2CPOptions.string (o : I2CPOptions) : String :=
  (match o.router_options with
   | some r => r.string
   | none => "") ++
  (match o.client_options with
   | some c => c.string
   | none => "")

/-- `ToString for SAMOptions` (src/sam_options.rs lines 647–673):
concatenate `FROM_PORT`, `TO_PORT` and the I2CP options, split the result
at every space, `sort_unstable`, `dedup`, then re-join each part with a
trailing space.  The `signature_type` field is rendered nowhere. -/
def SAMOptions.toOptionString (o : SAMOptions) : String :=
  let options :=
    optTok "FROM_PORT" (o.from_port.map toString) ++
    optTok "TO_PORT" (o.to_port.map toString) ++
    (match o.i2cp_options with
     | some i => i.string
     | none => "")
  let options_parts := dedupConsec (sortTokens (splitChar ' ' options.data))
  String.mk (options_parts.map (fun p => p ++ [' '])).flatten

/-- `SAMOptions::options` returns `self.to_string()`. -/
def SAMOptions.options (o : SAMOptions) : String := o.toOptionString

/-! ## src/sam.rs — the SAM control-protocol driver

The pure cores of `verify_response`, the `STREAM CONNECT` request built by
`StreamConnect::with_session`, and the destination-line processing of
`StreamForward::accept` are embedded below.  Socket I/O is not modelled:
each function receives exactly the data the corresponding Rust code reads
from its socket. -/

/-- `SessionStyle` (src/sam.rs lines 24–29). -/
inductive SessionStyle where
  | Datagram
  | Raw
  | Stream
deriving DecidableEq

/-- `SessionStyle::string` (src/sam.rs lines 63–71). -/
def SessionStyle.string : SessionStyle → String
  | .Datagram => "DATAGRAM"
  | .Raw => "RAW"
  | .Stream => "STREAM"

/-- Insert into the association-list model of `std::collections::HashMap`:
replace the value when the key is present, append otherwise. -/
def hashMapInsert (m : List (String × String)) (k v : String) : List (String × String) :=
  if m.any (fun p => p.1 = k) then
    m.map (fun p => if p.1 = k then (k, v) else p)
  else m ++ [(k, v)]

/-- The map `vec.iter().copied().collect::<HashMap<_, _>>()` builds in
`verify_response` (src/sam.rs line 74): `FromIterator for HashMap` inserts
the pairs in order, each insert overwriting any existing value for the
key. -/
def collectHashMap (vec : List (String × String)) : List (String × String) :=
  vec.foldl (fun m p => hashMapInsert m p.1 p.2) []

/-- `HashMap::get`, on the association-list model. -/
def mapGet (m : List (String × String)) (k : String) : Option String :=
  (m.find? (fun p => p.1 = k)).map (fun p => p.2)

/-- `verify_response` (src/sam.rs lines 73–89): build the map, read
`RESULT` (defaulting to `"OK"`) and `MESSAGE` (defaulting to `""`), and
dispatch on the result code. -/
def verify_response (vec : List (String × String)) :
    Except I2PError (List (String × String)) :=
  let map := collectHashMap vec
  let res := (mapGet map "RESULT").getD "OK"
  let msg := (mapGet map "MESSAGE").getD ""
  match res with
  | "OK" => Except.ok map
  | "CANT_REACH_PEER" => Except.error (I2PError.SAMCantReachPeer msg)
  | "KEY_NOT_FOUND" => Except.error (I2PError.SAMKeyNotFound msg)
  | "PEER_NOT_FOUND" => Except.error (I2PError.SAMPeerNotFound msg)
  | "DUPLICATED_DEST" => Except.error (I2PError.SAMDuplicatedDest msg)
  | "INVALID_KEY" => Except.error (I2PError.SAMInvalidKey msg)
  | "INVALID_ID" => Except.error (I2PError.SAMInvalidId msg)
  | "TIMEOUT" => Except.error (I2PError.SAMTimeout msg)
  | "I2P_ERROR" => Except.error (I2PError.SAMI2PError msg)
  | _ => Except.error (I2PError.SAMInvalidMessage msg)

/-- The request string `StreamConnect::with_session` sends
(src/sam.rs lines 264–273): the formatted `STREAM CONNECT` line — whose
format string already ends in `\n` — followed by `" TO_PORT={port}\n"`
when `port > 0` and by `'\n'` otherwise. -/
def stream_connect_msg (nickname destination : String) (port : Nat) : String :=
  let stream_msg :=
    "STREAM CONNECT ID=" ++ nickname ++ " DESTINATION=" ++ destination ++
      " SILENT=false\n"
  if port > 0 then stream_msg ++ (" TO_PORT=" ++ toString port ++ "\n")
  else stream_msg ++ "\n"

/-- The stream object `StreamForward::accept` returns, restricted to its
plain-data fields (src/sam.rs lines 369–376 and 392). -/
structure AcceptedStream where
  peer_dest : String
  peer_port : Nat
  local_port : Nat
deriving DecidableEq

/-- Destination-line processing of `StreamForward::accept`
(src/sam.rs lines 379–394): take the text before the first `' '` of the
line read after `STREAM STATUS`, trim it; an empty result is
`SAMKeyNotFound("No b64 destination in accept")`, otherwise the `?` on
`I2pAddr::from_b64` propagates a `BadAddressEncoding` and on success the
pair `(stream, addr)` is returned with the stream's `peer_dest` set to
the token, both ports `0`, and `addr` the derived address at port `0`. -/
def accept_process_line (dest_line : String) :
    Except I2PError (AcceptedStream × I2pSocketAddr) := do
  let destination :=
    String.mk (rustTrim ((splitChar ' ' dest_line.data).headD []))
  if destination = "" then
    Except.error (I2PError.SAMKeyNotFound "No b64 destination in accept")
  else do
    let a ← I2pAddr.from_b64 destination
    let addr := I2pSocketAddr.new a 0
    return ({ peer_dest := destination, peer_port := 0, local_port := 0 }, addr)

/-! ## src/session_watcher.rs — the session watcher

`SamSessionWatcher::accept` (lines 54–68) is effectful: it calls the
listener's `accept`, on error shuts the session's control socket down and
rebuilds session and listener via `__recreate` with a fresh nickname and
the saved parameters.  The model keeps the watcher state abstract in the
session and listener types and passes the outcome of each of the three
socket operations explicitly; the function returns the new watcher state
together with the call's result. -/

structure SamSessionWatcher (S L : Type) where
  opts : SAMOptions
  session : S
  destination : String
  sam_endpoint : String
  session_style : SessionStyle
  listener : L

/-- `SamSessionWatcher::accept` with the three effectful outcomes passed
in: `acceptResult` is `self.listener.forward.accept()`, `shutdownResult`
is `self.session.sam.conn.shutdown(Shutdown::Both)` (its `?` propagates
the error), and `recreateResult` is `__recreate` at the saved endpoint,
destination, style and options with a fresh nickname (its `?` inside
`recreate` also propagates). -/
def SamSessionWatcher.accept {S L A : Type} (w : SamSessionWatcher S L)
    (acceptResult : Except I2PError A)
    (shutdownResult : Except I2PError Unit)
    (recreateResult : Except I2PError (S × L)) :
    SamSessionWatcher S L × Except I2PError A :=
  match acceptResult with
  | Except.ok res => (w, Except.ok res)
  | Except.error _ =>
    match shutdownResult with
    | Except.error e => (w, Except.error e)
    | Except.ok _ =>
      match recreateResult with
      | Except.error e => (w, Except.error e)
      | Except.ok (s, l) =>
        ({ w with session := s, listener := l }, Except.error I2PError.SessionRecreated)

/-! ## src/parsers.rs — the nom 5 reply parsers

The `named!` parsers are macro combinators of nom 5: `tag!` and
`take_till!` are the streaming versions (they return `Incomplete` when the
input runs out), while `alphanumeric1` and `space1` are explicitly
imported from `nom::character::complete`.  A parse result is modelled by
`PRes`: `done rest val` for `Ok((rest, val))`, `failed` for
`Err::Error`/`Err::Failure`, and `incomplete` for `Err::Incomplete`
(`alt!` recovers only from `Error`; everything else propagates).  Parsers
here consume from the front of the input, so nom's zero-consumption
pointer checks in `separated_list!` become length checks. -/

inductive PRes (α : Type) where
  | done (rest : List Char) (val : α)
  | failed
  | incomplete
deriving DecidableEq

/-- Sequencing of parse results as in `do_parse!`: errors propagate. -/
def PRes.andThen {α β : Type} (r : PRes α) (f : List Char → α → PRes β) : PRes β :=
  match r with
  | .done rest v => f rest v
  | .failed => .failed
  | .incomplete => .incomplete

/-- `is_space` (src/parsers.rs lines 5–7). -/
def is_space (chr : Char) : Bool := chr = ' ' || chr = '\t'

/-- `is_next_line` (src/parsers.rs lines 9–11). -/
def is_next_line (chr : Char) : Bool := chr = '\n'

/-- `is_space_or_next_line` (src/parsers.rs lines 13–15). -/
def is_space_or_next_line (chr : Char) : Bool := is_space chr || is_next_line chr

/-- `is_double_quote` (src/parsers.rs lines 17–19). -/
def is_double_quote (chr : Char) : Bool := chr = '"'

/-- nom streaming `tag!`: match the literal; a proper prefix of the
literal at the end of input is `Incomplete`, a mismatch is an error. -/
def pTag : List Char → List Char → PRes Unit
  | [], inp => .done inp ()
  | _ :: _, [] => .incomplete
  | l :: ls, c :: cs => if c = l then pTag ls cs else .failed

/-- nom streaming `take_till!`: consume until the predicate holds;
`Incomplete` if the input is exhausted first. -/
def pTakeTill (p : Char → Bool) : List Char → PRes (List Char)
  | [] => .incomplete
  | c :: cs =>
    if p c then .done (c :: cs) []
    else
      match pTakeTill p cs with
      | .done rest v => .done rest (c :: v)
      | .failed => .failed
      | .incomplete => .incomplete

/-- nom `character::complete::alphanumeric1`: one or more ASCII
alphanumeric characters, maximal munch. -/
def pAlphanumeric1 (inp : List Char) : PRes (List Char) :=
  let v := inp.takeWhile Char.isAlphanum
  if v.isEmpty then .failed else .done (inp.dropWhile Char.isAlphanum) v

/-- nom `character::complete::space1`: one or more spaces or tabs,
maximal munch. -/
def pSpace1 (inp : List Char) : PRes (List Char) :=
  let v := inp.takeWhile is_space
  if v.isEmpty then .failed else .done (inp.dropWhile is_space) v

/-- `alt!`: try the first parser, fall back to the second on `Error`
only. -/
def pAlt {α : Type} (p q : List Char → PRes α) (inp : List Char) : PRes α :=
  match p inp with
  | .failed => q inp
  | r => r

/-- `quoted_value` (src/parsers.rs lines 21–28): a `"`, the body up to the
next `"`, and the closing `"`. -/
def quoted_value (inp : List Char) : PRes (List Char) :=
  (pTag ['"'] inp).andThen fun i1 _ =>
    (pTakeTill is_double_quote i1).andThen fun i2 v =>
      (pTag ['"'] i2).andThen fun i3 _ => .done i3 v

/-- `value` (src/parsers.rs line 30): everything up to a space, tab or
newline. -/
def value (inp : List Char) : PRes (List Char) :=
  pTakeTill is_space_or_next_line inp

/-- `key_value` (src/parsers.rs lines 32–39): an alphanumeric key, `=`,
then a quoted or bare value. -/
def key_value (inp : List Char) : PRes (List Char × List Char) :=
  (pAlphanumeric1 inp).andThen fun i1 k =>
    (pTag ['='] i1).andThen fun i2 _ =>
      (pAlt quoted_value value i2).andThen fun i3 v => .done i3 (k, v)

/-- The loop of nom 5 `separated_list!` after a first element has been
parsed: alternate separator and element, stopping (and restoring the
input position) at the first `Error`; `Incomplete` propagates; an
iteration that consumes nothing is an error (nom's pointer-equality
guards, rendered as length checks since every parser here returns a
suffix of its input). -/
def pSepLoopF (sep : List Char → PRes (List Char))
    (elem : List Char → PRes (List Char × List Char)) :
    Nat → List (List Char × List Char) → List Char →
    PRes (List (List Char × List Char))
  | 0, _, _ => .failed
  | fuel + 1, acc, i =>
    match sep i with
    | .failed => .done i acc
    | .incomplete => .incomplete
    | .done i1 _ =>
      if i1.length = i.length then .failed
      else
        match elem i1 with
        | .failed => .done i acc
        | .incomplete => .incomplete
        | .done i2 o =>
          if i2.length < i.length then pSepLoopF sep elem fuel (acc ++ [o]) i2
          else .failed

/-- The loop entry: every passing iteration consumes at least one
character, so `length + 1` units of fuel can never run out. -/
def pSepLoop (sep : List Char → PRes (List Char))
    (elem : List Char → PRes (List Char × List Char))
    (acc : List (List Char × List Char)) (i : List Char) :
    PRes (List (List Char × List Char)) :=
  pSepLoopF sep elem (i.length + 1) acc i

/-- nom 5 `separated_list!`: possibly-empty list of elements separated by
the separator. -/
def pSeparatedList (sep : List Char → PRes (List Char))
    (elem : List Char → PRes (List Char × List Char)) (i : List Char) :
    PRes (List (List Char × List Char)) :=
  match elem i with
  | .failed => .done i []
  | .incomplete => .incomplete
  | .done i1 o =>
    if i1.length = i.length then .failed
    else pSepLoop sep elem [o] i1

/-- `keys_and_values` (src/parsers.rs line 41):
`separated_list!(space, key_value)`. -/
def keys_and_values (inp : List Char) : PRes (List (List Char × List Char)) :=
  pSeparatedList pSpace1 key_value inp

/-- The shared shape of the five reply parsers
(src/parsers.rs lines 43–86): the two-word tag followed by one space,
`keys_and_values`, then the terminating `\n`. -/
def samReply (tagLit : List Char) (inp : List Char) :
    PRes (List (List Char × List Char)) :=
  (pTag tagLit inp).andThen fun i1 _ =>
    (keys_and_values i1).andThen fun i2 opts =>
      (pTag ['\n'] i2).andThen fun i3 _ => .done i3 opts

/-- `sam_hello` (src/parsers.rs lines 43–50). -/
def sam_hello (inp : List Char) : PRes (List (List Char × List Char)) :=
  samReply "HELLO REPLY ".data inp

/-- `sam_session_status` (src/parsers.rs lines 52–59). -/
def sam_session_status (inp : List Char) : PRes (List (List Char × List Char)) :=
  samReply "SESSION STATUS ".data inp

/-- `sam_stream_status` (src/parsers.rs lines 61–68). -/
def sam_stream_status (inp : List Char) : PRes (List (List Char × List Char)) :=
  samReply "STREAM STATUS ".data inp

/-- `sam_naming_reply` (src/parsers.rs lines 70–77). -/
def sam_naming_reply (inp : List Char) : PRes (List (List Char × List Char)) :=
  samReply "NAMING REPLY ".data inp

/-- `sam_dest_reply` (src/parsers.rs lines 79–86). -/
def sam_dest_reply (inp : List Char) : PRes (List (List Char × List Char)) :=
  samReply "DEST REPLY ".data inp

/-- The `reply_parser(b)?` step of `SamConnection::send`
(src/sam.rs line 107): any nom error — `Error`, `Failure` or
`Incomplete` — is converted by `From<nom::Err<I, E>> for Error`
(src/error.rs lines 109–115) into the `MessageParsing` kind; on success
the pair list is kept. -/
def parse_reply (rp : List Char → PRes (List (List Char × List Char)))
    (s : String) : Except I2PError (List (String × String)) :=
  match rp s.data with
  | .done _ opts => Except.ok (opts.map (fun p => (String.mk p.1, String.mk p.2)))
  | .failed => Except.error I2PError.MessageParsing
  | .incomplete => Except.error I2PError.MessageParsing

/-! ## The reply-line grammar

The language the reply parsers actually accept, written as inductive
derivations.  A value is either a bare token (no space, tab or newline;
not beginning with `"`) or `"`-quoted with a body free of `"`; what may
follow a bare token is the next separator or the terminating newline, so
the derivations thread the continuation through (`GValR chunk v rest`
reads: at input `chunk ++ rest`, a value parse yields `v` and leaves
`rest`). -/

inductive GValR : List Char → List Char → List Char → Prop where
  | bare (v : List Char) (d : Char) (ds : List Char)
      (hv : ∀ c ∈ v, is_space_or_next_line c = false)
      (hq : v.head? ≠ some '"')
      (hd : is_space_or_next_line d = true) :
      GValR v v (d :: ds)
  | quoted (v rest : List Char) (hv : '"' ∉ v) :
      GValR ('"' :: (v ++ ['"'])) v rest

/-- A `KEY=VALUE` pair: a nonempty ASCII-alphanumeric key, `=`, a value. -/
inductive GPairR : List Char → List Char × List Char → List Char → Prop where
  | mk (k chunk v rest : List Char)
      (hk : k ≠ []) (hka : ∀ c ∈ k, c.isAlphanum = true)
      (hval : GValR chunk v rest) :
      GPairR (k ++ '=' :: chunk) (k, v) rest

/-- Zero or more groups of a separator run (one or more spaces/tabs) and a
pair, ending at the terminating newline; `GChain i ps rest` reads: from
`i`, the groups yield `ps` and the input continues as `'\n' :: rest`. -/
inductive GChain : List Char → List (List Char × List Char) → List Char → Prop where
  | nil (rest : List Char) : GChain ('\n' :: rest) [] rest
  | cons (sp pc i : List Char) (kv : List Char × List Char)
      (ps : List (List Char × List Char)) (rest : List Char)
      (hsp : sp ≠ []) (hsps : ∀ c ∈ sp, is_space c = true)
      (hp : GPairR pc kv i) (hch : GChain i ps rest) :
      GChain (sp ++ (pc ++ i)) (kv :: ps) rest

/-- The body after the two-word tag: either no pairs at all and the
newline at once, or a first pair followed by a chain. -/
inductive GBody : List Char → List (List Char × List Char) → List Char → Prop where
  | empty (rest : List Char) : GBody ('\n' :: rest) [] rest
  | pairs (pc i : List Char) (kv : List Char × List Char)
      (ps : List (List Char × List Char)) (rest : List Char)
      (hp : GPairR pc kv i) (hch : GChain i ps rest) :
      GBody (pc ++ i) (kv :: ps) rest

/-- A whole accepted reply input: the literal tag (with its trailing
space) followed by a body whose derivation yields the pairs and leaves
`rest` beyond the terminating newline. -/
def GReply (tagLit s : List Char) (ps : List (List Char × List Char))
    (rest : List Char) : Prop :=
  ∃ body, s = tagLit ++ body ∧ GBody body ps rest

/-! ## Auxiliary definitions used by the theorems below -/

deriving instance DecidableEq for Except

def wfPair (p : List Char × List Char) : Bool :=
  !p.1.isEmpty && p.1.all Char.isAlphanum &&
    p.2.all (fun c => !is_space_or_next_line c) && p.2.head? != some '"'

def renderChain : List (List Char × List Char) → List Char
  | [] => []
  | (k, v) :: ps => ' ' :: ((k ++ '=' :: v) ++ renderChain ps)

def renderBody : List (List Char × List Char) → List Char
  | [] => []
  | (k, v) :: ps => (k ++ '=' :: v) ++ renderChain ps

/-- The options value exercising the inbound `length_variance` branch of
the serialiser. -/
def inboundLengthVarianceOptions : SAMOptions :=
  { i2cp_options := some
      { router_options := some
          { inbound := some { length_variance := some 1 } } } }

/-- The options value exercising the outbound `length_variance` branch of
the serialiser. -/
def outboundLengthVarianceOptions : SAMOptions :=
  { i2cp_options := some
      { router_options := some
          { outbound := some { length_variance := some (-2) } } } }

/-- A concrete watcher state over `Nat` stand-ins for the session and
listener handles. -/
def watcher0 : SamSessionWatcher Nat Nat :=
  { opts := SAMOptions.default, session := 0, destination := "dest",
    sam_endpoint := "127.0.0.1:7656", session_style := .Stream, listener := 7 }

/-! ## Characterisation lemmas for the embedded parsers and maps -/

theorem pTag_done_iff (lit : List Char) : ∀ (inp rest : List Char),
    pTag lit inp = .done rest () ↔ inp = lit ++ rest := by
  induction lit with
  | nil =>
    intro inp rest
    simp [pTag]
  | cons l ls ih =>
    intro inp rest
    cases inp with
    | nil => simp [pTag]
    | cons c cs =>
      by_cases hc : c = l
      · subst hc
        simp [pTag, ih]
      · simp [pTag, hc, Ne.symm hc]

theorem pTakeTill_ne_failed (p : Char → Bool) (inp : List Char) :
    pTakeTill p inp ≠ .failed := by
  induction inp with
  | nil => simp [pTakeTill]
  | cons c cs ih =>
    by_cases hc : p c
    · simp [pTakeTill, hc]
    · simp only [pTakeTill, hc]
      cases h : pTakeTill p cs with
      | done r v => simp
      | failed => exact absurd h ih
      | incomplete => simp

theorem pTakeTill_done_iff (p : Char → Bool) : ∀ (inp rest v : List Char),
    pTakeTill p inp = .done rest v ↔
      (inp = v ++ rest ∧ (∀ c ∈ v, p c = false) ∧ ∃ d ds, rest = d :: ds ∧ p d = true) := by
  intro inp
  induction inp with
  | nil =>
    intro rest v
    constructor
    · intro h
      simp [pTakeTill] at h
    · rintro ⟨h, _, d, ds, rfl, _⟩
      exact absurd h (by simp)
  | cons c cs ih =>
    intro rest v
    by_cases hc : p c
    · constructor
      · intro h
        simp only [pTakeTill, hc, if_pos] at h
        obtain ⟨h1, h2⟩ := PRes.done.inj h
        subst h1
        subst h2
        exact ⟨by simp, by simp, c, cs, rfl, hc⟩
      · rintro ⟨hdec, hv, d, ds, rfl, hd⟩
        cases v with
        | nil =>
          simp at hdec
          obtain ⟨rfl, rfl⟩ := hdec
          simp [pTakeTill, hc]
        | cons a as =>
          have : c = a := by
            simpa using congrArg List.head? hdec
          subst this
          exact absurd hc (by simp [hv c (by simp)])
    · constructor
      · intro h
        simp only [pTakeTill, hc, if_neg, Bool.false_eq_true, not_false_iff] at h
        cases hrec : pTakeTill p cs with
        | done r w =>
          rw [hrec] at h
          obtain ⟨h1, h2⟩ := PRes.done.inj h
          obtain ⟨hdec, hw, d, ds, hr, hd⟩ := (ih r w).mp hrec
          subst h1
          subst h2
          subst hr
          refine ⟨by simp [hdec], ?_, d, ds, rfl, hd⟩
          intro x hx
          rcases List.mem_cons.mp hx with rfl | hx
          · simpa using hc
          · exact hw x hx
        | failed =>
          rw [hrec] at h
          exact absurd h (by simp)
        | incomplete =>
          rw [hrec] at h
          exact absurd h (by simp)
      · rintro ⟨hdec, hv, d, ds, rfl, hd⟩
        cases v with
        | nil =>
          simp at hdec
          obtain ⟨rfl, rfl⟩ := hdec
          exact absurd hd (by simp [hc])
        | cons a as =>
          have ha : c = a := by simpa using congrArg List.head? hdec
          subst ha
          have hcs : cs = as ++ d :: ds := by simpa using hdec
          have := (ih (d :: ds) as).mpr ⟨hcs, fun x hx => hv x (by simp [hx]), d, ds, rfl, hd⟩
          simp only [pTakeTill, hc, if_neg, Bool.false_eq_true, not_false_iff, this]

theorem takeWhile_append_of (p : Char → Bool) (v rest : List Char)
    (hv : ∀ c ∈ v, p c = true) (hr : ∀ d ds, rest = d :: ds → p d = false) :
    (v ++ rest).takeWhile p = v ∧ (v ++ rest).dropWhile p = rest := by
  induction v with
  | nil =>
    cases rest with
    | nil => simp
    | cons d ds => simp [List.takeWhile, List.dropWhile, hr d ds rfl]
  | cons a as ih =>
    have ha : p a = true := hv a (by simp)
    have := ih (fun c hc => hv c (by simp [hc]))
    simp [List.takeWhile, List.dropWhile, ha, this.1, this.2]

theorem dropWhile_head_false (p : Char → Bool) : ∀ (l : List Char) (d : Char)
    (ds : List Char), l.dropWhile p = d :: ds → p d = false
  | [], d, ds, h => by simp at h
  | c :: cs, d, ds, h => by
    by_cases hc : p c
    · rw [List.dropWhile_cons_of_pos hc] at h
      exact dropWhile_head_false p cs d ds h
    · rw [List.dropWhile_cons_of_neg hc] at h
      obtain ⟨rfl, _⟩ := List.cons.inj h
      simpa using hc

theorem pAlphanumeric1_done_iff (inp rest v : List Char) :
    pAlphanumeric1 inp = .done rest v ↔
      (inp = v ++ rest ∧ v ≠ [] ∧ (∀ c ∈ v, c.isAlphanum = true) ∧
        ∀ d ds, rest = d :: ds → d.isAlphanum = false) := by
  constructor
  · intro h
    simp only [pAlphanumeric1] at h
    by_cases he : (inp.takeWhile Char.isAlphanum).isEmpty
    · simp [he] at h
    · simp only [he, if_neg, Bool.false_eq_true, not_false_iff] at h
      obtain ⟨h1, h2⟩ := PRes.done.inj h
      subst h1
      subst h2
      refine ⟨(List.takeWhile_append_dropWhile _ _).symm, ?_, ?_, ?_⟩
      · intro hv
        rw [hv] at he
        simp at he
      · intro c hc
        exact List.mem_takeWhile_imp hc
      · intro d ds hd
        exact dropWhile_head_false _ _ _ _ hd
  · rintro ⟨rfl, hv, hva, hrest⟩
    obtain ⟨ht, hd⟩ := takeWhile_append_of Char.isAlphanum v rest hva hrest
    simp only [pAlphanumeric1, ht, hd]
    simp [List.isEmpty_iff, hv]

theorem pSpace1_done_iff (inp rest v : List Char) :
    pSpace1 inp = .done rest v ↔
      (inp = v ++ rest ∧ v ≠ [] ∧ (∀ c ∈ v, is_space c = true) ∧
        ∀ d ds, rest = d :: ds → is_space d = false) := by
  constructor
  · intro h
    simp only [pSpace1] at h
    by_cases he : (inp.takeWhile is_space).isEmpty
    · simp [he] at h
    · simp only [he, if_neg, Bool.false_eq_true, not_false_iff] at h
      obtain ⟨h1, h2⟩ := PRes.done.inj h
      subst h1
      subst h2
      refine ⟨(List.takeWhile_append_dropWhile _ _).symm, ?_, ?_, ?_⟩
      · intro hv
        rw [hv] at he
        simp at he
      · intro c hc
        exact List.mem_takeWhile_imp hc
      · intro d ds hd
        exact dropWhile_head_false _ _ _ _ hd
  · rintro ⟨rfl, hv, hva, hrest⟩
    obtain ⟨ht, hd⟩ := takeWhile_append_of is_space v rest hva hrest
    simp only [pSpace1, ht, hd]
    simp [List.isEmpty_iff, hv]

theorem quoted_value_done_iff (inp rest v : List Char) :
    quoted_value inp = .done rest v ↔
      (inp = '"' :: (v ++ '"' :: rest) ∧ '"' ∉ v) := by
  constructor
  · intro h
    simp only [quoted_value, PRes.andThen] at h
    cases h1 : pTag ['"'] inp with
    | done i1 u =>
      rw [h1] at h
      simp only at h
      cases h2 : pTakeTill is_double_quote i1 with
      | done i2 w =>
        rw [h2] at h
        simp only at h
        cases h3 : pTag ['"'] i2 with
        | done i3 u2 =>
          rw [h3] at h
          simp only at h
          obtain ⟨hr, hv⟩ := PRes.done.inj h
          have e1 : inp = '"' :: i1 := by
            cases u
            simpa using (pTag_done_iff ['"'] inp i1).mp h1
          obtain ⟨e2, hw, d, ds, hrest2, hd⟩ := (pTakeTill_done_iff is_double_quote i1 i2 w).mp h2
          have e3 : i2 = '"' :: i3 := by
            cases u2
            simpa using (pTag_done_iff ['"'] i2 i3).mp h3
          rw [← hr, ← hv]
          constructor
          · rw [e1, e2, e3]
          · intro hmem
            have := hw '"' hmem
            simp [is_double_quote] at this
        | failed =>
          rw [h3] at h
          simp at h
        | incomplete =>
          rw [h3] at h
          simp at h
      | failed =>
        rw [h2] at h
        simp at h
      | incomplete =>
        rw [h2] at h
        simp at h
    | failed =>
      rw [h1] at h
      simp at h
    | incomplete =>
      rw [h1] at h
      simp at h
  · rintro ⟨rfl, hv⟩
    have h1 : pTag ['"'] ('"' :: (v ++ '"' :: rest)) = .done (v ++ '"' :: rest) () :=
      (pTag_done_iff _ _ _).mpr rfl
    have h2 : pTakeTill is_double_quote (v ++ '"' :: rest) = .done ('"' :: rest) v :=
      (pTakeTill_done_iff _ _ _ _).mpr
        ⟨rfl, fun c hc => by
          have : c ≠ '"' := fun hcq => hv (hcq ▸ hc)
          simp [is_double_quote, this], '"', rest, rfl, by simp [is_double_quote]⟩
    have h3 : pTag ['"'] ('"' :: rest) = .done rest () := (pTag_done_iff _ _ _).mpr rfl
    simp [quoted_value, PRes.andThen, h1, h2, h3]

theorem quoted_value_failed_iff (inp : List Char) :
    quoted_value inp = .failed ↔ ∃ c cs, inp = c :: cs ∧ c ≠ '"' := by
  constructor
  · intro h
    cases inp with
    | nil =>
      simp [quoted_value, PRes.andThen, pTag] at h
    | cons c cs =>
      by_cases hc : c = '"'
      · subst hc
        exfalso
        simp only [quoted_value, PRes.andThen] at h
        have h1 : pTag ['"'] ('"' :: cs) = .done cs () := (pTag_done_iff _ _ _).mpr rfl
        rw [h1] at h
        simp only at h
        cases h2 : pTakeTill is_double_quote cs with
        | done i2 w =>
          rw [h2] at h
          obtain ⟨_, hw, d, ds, hrest, hd⟩ := (pTakeTill_done_iff _ _ _ _).mp h2
          have hdq : d = '"' := by simpa [is_double_quote] using hd
          subst hdq
          subst hrest
          have h3 : pTag ['"'] ('"' :: ds) = .done ds () := (pTag_done_iff _ _ _).mpr rfl
          simp only [h3] at h
          simp at h
        | failed => exact pTakeTill_ne_failed _ _ h2
        | incomplete =>
          rw [h2] at h
          simp at h
      · exact ⟨c, cs, rfl, hc⟩
  · rintro ⟨c, cs, rfl, hc⟩
    have h1 : pTag ['"'] (c :: cs) = .failed := by
      simp [pTag, hc]
    simp [quoted_value, PRes.andThen, h1]

theorem is_space_or_next_line_cases {c : Char} (h : is_space_or_next_line c = true) :
    c = ' ' ∨ c = '\t' ∨ c = '\n' := by
  simp only [is_space_or_next_line, is_space, is_next_line, Bool.or_eq_true,
    decide_eq_true_eq] at h
  tauto

theorem delim_ne_quote {c : Char} (h : is_space_or_next_line c = true) : c ≠ '"' := by
  rcases is_space_or_next_line_cases h with rfl | rfl | rfl <;> decide

theorem alnum_not_space {c : Char} (h : c.isAlphanum = true) : is_space c = false := by
  by_contra hs
  simp only [Bool.not_eq_false, is_space, Bool.or_eq_true, decide_eq_true_eq] at hs
  rcases hs with rfl | rfl <;> simp at h

theorem key_value_done_iff (inp rest : List Char) (kv : List Char × List Char) :
    key_value inp = .done rest kv ↔ ∃ pc, inp = pc ++ rest ∧ GPairR pc kv rest := by
  constructor
  · intro h
    simp only [key_value, PRes.andThen] at h
    cases h1 : pAlphanumeric1 inp with
    | done i1 k =>
      rw [h1] at h
      simp only at h
      cases h2 : pTag ['='] i1 with
      | done i2 u =>
        rw [h2] at h
        simp only at h
        cases h3 : pAlt quoted_value value i2 with
        | done i3 v =>
          rw [h3] at h
          simp only at h
          obtain ⟨hr, hkv⟩ := PRes.done.inj h
          obtain ⟨e1, hk, hka, _⟩ := (pAlphanumeric1_done_iff inp i1 k).mp h1
          have e2 : i1 = '=' :: i2 := by
            cases u
            simpa using (pTag_done_iff ['='] i1 i2).mp h2
          cases hq : quoted_value i2 with
          | done r w =>
            simp only [pAlt, hq] at h3
            obtain ⟨hr2, hw2⟩ := PRes.done.inj h3
            obtain ⟨e3, hnq⟩ := (quoted_value_done_iff i2 r w).mp hq
            refine ⟨k ++ '=' :: ('"' :: (w ++ ['"'])), ?_, ?_⟩
            · rw [e1, e2, e3, ← hr, hr2]
              simp
            · rw [← hr, ← hkv, ← hw2]
              exact GPairR.mk k _ w i3 hk hka (GValR.quoted w i3 hnq)
          | failed =>
            simp only [pAlt, hq] at h3
            obtain ⟨e3, hnv, d, ds, hrd, hd⟩ := (pTakeTill_done_iff _ i2 i3 v).mp h3
            obtain ⟨hc, hcs, hhd, hne⟩ := (quoted_value_failed_iff i2).mp hq
            refine ⟨k ++ '=' :: v, ?_, ?_⟩
            · rw [e1, e2, e3, ← hr]
              simp
            · rw [← hr, ← hkv, hrd]
              refine GPairR.mk k v v (d :: ds) hk hka ?_
              refine GValR.bare v d ds hnv ?_ hd
              cases v with
              | nil => simp
              | cons a as =>
                have ha : hc = a := by
                  have h5 := congrArg List.head? e3
                  rw [hhd] at h5
                  simpa using h5
                subst ha
                simpa using hne
          | incomplete =>
            simp only [pAlt, hq] at h3
            exact absurd h3 (by simp)
        | failed =>
          rw [h3] at h
          simp at h
        | incomplete =>
          rw [h3] at h
          simp at h
      | failed =>
        rw [h2] at h
        simp at h
      | incomplete =>
        rw [h2] at h
        simp at h
    | failed =>
      rw [h1] at h
      simp at h
    | incomplete =>
      rw [h1] at h
      simp at h
  · rintro ⟨pc, rfl, hp⟩
    obtain ⟨k, chunk, v, rest, hk, hka, hval⟩ := hp
    have h1 : pAlphanumeric1 (k ++ '=' :: chunk ++ rest) = .done ('=' :: (chunk ++ rest)) k := by
      refine (pAlphanumeric1_done_iff _ _ _).mpr ⟨by simp, hk, hka, ?_⟩
      intro d ds hd
      obtain ⟨rfl, _⟩ := List.cons.inj hd
      decide
    have h2 : pTag ['='] ('=' :: (chunk ++ rest)) = .done (chunk ++ rest) () :=
      (pTag_done_iff _ _ _).mpr rfl
    cases hval with
    | quoted v rest hnq =>
      have h3 : quoted_value (('"' :: (v ++ ['"'])) ++ rest) = .done rest v := by
        refine (quoted_value_done_iff _ _ _).mpr ⟨by simp, hnq⟩
      simp only [key_value, PRes.andThen, h1, h2, pAlt, h3]
    | bare vv d ds hnv hq hd =>
      have hfail : quoted_value (chunk ++ d :: ds) = .failed := by
        refine (quoted_value_failed_iff _).mpr ?_
        cases hchunk : chunk with
        | nil => exact ⟨d, ds, by simp [hchunk], delim_ne_quote hd⟩
        | cons a as =>
          refine ⟨a, as ++ d :: ds, by simp [hchunk], ?_⟩
          intro haq
          rw [hchunk, haq] at hq
          simp at hq
      have h3 : value (chunk ++ d :: ds) = .done (d :: ds) chunk :=
        (pTakeTill_done_iff _ _ _ _).mpr ⟨rfl, hnv, d, ds, rfl, hd⟩
      simp only [key_value, PRes.andThen, h1, h2, pAlt, hfail, h3]

theorem GPairR_head_alnum {pc : List Char} {kv : List Char × List Char}
    {rest : List Char} (h : GPairR pc kv rest) :
    ∃ a as, pc = a :: as ∧ a.isAlphanum = true := by
  obtain ⟨k, chunk, v, rest, hk, hka, _⟩ := h
  cases k with
  | nil => exact absurd rfl hk
  | cons a as => exact ⟨a, as ++ '=' :: chunk, by simp, hka a (by simp)⟩

theorem pSpace1_failed_of_head {d : Char} (l : List Char) (hd : is_space d = false) :
    pSpace1 (d :: l) = .failed := by
  simp [pSpace1, List.takeWhile, hd]

theorem pSepLoopF_complete : ∀ (fuel : Nat) (i : List Char)
    (acc res : List (List Char × List Char)) (rest : List Char),
    i.length < fuel →
    pSepLoopF pSpace1 key_value fuel acc i = .done ('\n' :: rest) res →
    ∃ ps, res = acc ++ ps ∧ GChain i ps rest := by
  intro fuel
  induction fuel with
  | zero =>
    intro i acc res rest hlt
    omega
  | succ f ih =>
    intro i acc res rest hlt h
    simp only [pSepLoopF] at h
    cases hsep : pSpace1 i with
    | failed =>
      rw [hsep] at h
      obtain ⟨hi, hres⟩ := PRes.done.inj h
      exact ⟨[], by simp [hres], hi ▸ GChain.nil rest⟩
    | incomplete =>
      rw [hsep] at h
      simp at h
    | done i1 sp =>
      rw [hsep] at h
      simp only at h
      by_cases hlen : i1.length = i.length
      · rw [if_pos hlen] at h
        simp at h
      · rw [if_neg hlen] at h
        cases helem : key_value i1 with
        | failed =>
          rw [helem] at h
          obtain ⟨hi, hres⟩ := PRes.done.inj h
          obtain ⟨hdec, hsp, hsps, _⟩ := (pSpace1_done_iff i i1 sp).mp hsep
          cases sp with
          | nil => exact absurd rfl hsp
          | cons a as =>
            exfalso
            have ha : a = '\n' := by
              have := congrArg List.head? (hi ▸ hdec)
              simpa using this.symm
            have := hsps a (by simp)
            rw [ha] at this
            simp [is_space] at this
        | incomplete =>
          rw [helem] at h
          simp at h
        | done i2 kv =>
          rw [helem] at h
          simp only at h
          by_cases h2 : i2.length < i.length
          · rw [if_pos h2] at h
            obtain ⟨ps', hres, hch⟩ := ih i2 (acc ++ [kv]) res rest (by omega) h
            obtain ⟨hdec, hsp, hsps, _⟩ := (pSpace1_done_iff i i1 sp).mp hsep
            obtain ⟨pc, hdec2, hp⟩ := (key_value_done_iff i1 i2 kv).mp helem
            refine ⟨kv :: ps', by simp [hres], ?_⟩
            rw [hdec, hdec2]
            exact GChain.cons sp pc i2 kv ps' rest hsp hsps hp hch
          · rw [if_neg h2] at h
            simp at h

theorem pSepLoopF_sound {i : List Char} {ps : List (List Char × List Char)}
    {rest : List Char} (h : GChain i ps rest) :
    ∀ (fuel : Nat) (acc : List (List Char × List Char)), i.length < fuel →
    pSepLoopF pSpace1 key_value fuel acc i = .done ('\n' :: rest) (acc ++ ps) := by
  induction h with
  | nil rest =>
    intro fuel acc hlt
    cases fuel with
    | zero => omega
    | succ f =>
      have hsep : pSpace1 ('\n' :: rest) = .failed :=
        pSpace1_failed_of_head rest (by decide)
      simp [pSepLoopF, hsep]
  | cons sp pc i kv ps rest hsp hsps hp hch ih =>
    intro fuel acc hlt
    cases fuel with
    | zero => omega
    | succ f =>
      obtain ⟨a, as, hpc, ha⟩ := GPairR_head_alnum hp
      have hsep : pSpace1 (sp ++ (pc ++ i)) = .done (pc ++ i) sp := by
        refine (pSpace1_done_iff _ _ _).mpr ⟨rfl, hsp, hsps, ?_⟩
        intro d ds hd
        rw [hpc] at hd
        obtain ⟨rfl, _⟩ := List.cons.inj hd
        exact alnum_not_space ha
      have helem : key_value (pc ++ i) = .done i kv :=
        (key_value_done_iff _ _ _).mpr ⟨pc, rfl, hp⟩
      have hsplen : 0 < sp.length := List.length_pos.mpr hsp
      have hpclen : 0 < pc.length := by
        rw [hpc]
        simp
      have hlen1 : ¬((pc ++ i).length = (sp ++ (pc ++ i)).length) := by
        simp only [List.length_append]
        omega
      have hlen2 : i.length < (sp ++ (pc ++ i)).length := by
        simp only [List.length_append]
        omega
      have hrec := ih f (acc ++ [kv]) (by
        have := hlt
        simp only [List.length_append] at this ⊢
        omega)
      simp only [pSepLoopF, hsep, if_neg hlen1, helem, if_pos hlen2, hrec]
      simp

theorem pAlphanumeric1_failed_of_head {d : Char} (l : List Char)
    (hd : d.isAlphanum = false) : pAlphanumeric1 (d :: l) = .failed := by
  simp [pAlphanumeric1, List.takeWhile, hd]

theorem key_value_failed_of_head {d : Char} (l : List Char)
    (hd : d.isAlphanum = false) : key_value (d :: l) = .failed := by
  simp [key_value, PRes.andThen, pAlphanumeric1_failed_of_head l hd]

theorem samReply_done_iff (tagLit inp rest : List Char)
    (ps : List (List Char × List Char)) :
    samReply tagLit inp = .done rest ps ↔ GReply tagLit inp ps rest := by
  constructor
  · intro h
    simp only [samReply, PRes.andThen] at h
    cases h1 : pTag tagLit inp with
    | done i1 u =>
      rw [h1] at h
      simp only at h
      cases h2 : keys_and_values i1 with
      | done i2 ps' =>
        rw [h2] at h
        simp only at h
        cases h3 : pTag ['\n'] i2 with
        | done i3 u2 =>
          rw [h3] at h
          simp only at h
          obtain ⟨hi3, hps⟩ := PRes.done.inj h
          have e1 : inp = tagLit ++ i1 := by
            cases u
            exact (pTag_done_iff tagLit inp i1).mp h1
          have e3 : i2 = '\n' :: i3 := by
            cases u2
            simpa using (pTag_done_iff ['\n'] i2 i3).mp h3
          refine ⟨i1, e1, ?_⟩
          rw [← hps, ← hi3]
          simp only [keys_and_values, pSeparatedList] at h2
          cases h4 : key_value i1 with
          | failed =>
            rw [h4] at h2
            obtain ⟨hi1, hps'⟩ := PRes.done.inj h2
            rw [hi1, e3, ← hps']
            exact GBody.empty i3
          | incomplete =>
            rw [h4] at h2
            simp at h2
          | done i1' kv =>
            rw [h4] at h2
            simp only at h2
            by_cases hlen : i1'.length = i1.length
            · rw [if_pos hlen] at h2
              simp at h2
            · rw [if_neg hlen] at h2
              rw [e3] at h2
              obtain ⟨ps'', hps'', hch⟩ :=
                pSepLoopF_complete (i1'.length + 1) i1' [kv] ps' i3 (by omega) h2
              obtain ⟨pc, hdec, hp⟩ := (key_value_done_iff i1 i1' kv).mp h4
              rw [hdec, hps'']
              exact GBody.pairs pc i1' kv ps'' i3 hp hch
        | failed =>
          rw [h3] at h
          simp at h
        | incomplete =>
          rw [h3] at h
          simp at h
      | failed =>
        rw [h2] at h
        simp at h
      | incomplete =>
        rw [h2] at h
        simp at h
    | failed =>
      rw [h1] at h
      simp at h
    | incomplete =>
      rw [h1] at h
      simp at h
  · rintro ⟨body, rfl, hb⟩
    have h1 : pTag tagLit (tagLit ++ body) = .done body () :=
      (pTag_done_iff _ _ _).mpr rfl
    cases hb with
    | empty rest =>
      have h4 : key_value ('\n' :: rest) = .failed :=
        key_value_failed_of_head rest (by decide)
      have h3 : pTag ['\n'] ('\n' :: rest) = .done rest () :=
        (pTag_done_iff _ _ _).mpr rfl
      simp [samReply, PRes.andThen, h1, keys_and_values, pSeparatedList, h4, h3]
    | pairs pc i kv ps rest hp hch =>
      obtain ⟨a, as, hpc, ha⟩ := GPairR_head_alnum hp
      have h4 : key_value (pc ++ i) = .done i kv :=
        (key_value_done_iff _ _ _).mpr ⟨pc, rfl, hp⟩
      have hpclen : 0 < pc.length := by
        rw [hpc]
        simp
      have hlen : ¬(i.length = (pc ++ i).length) := by
        simp only [List.length_append]
        omega
      have hloop : pSepLoopF pSpace1 key_value (i.length + 1) [kv] i =
          .done ('\n' :: rest) ([kv] ++ ps) :=
        pSepLoopF_sound hch (i.length + 1) [kv] (by omega)
      have h3 : pTag ['\n'] ('\n' :: rest) = .done rest () :=
        (pTag_done_iff _ _ _).mpr rfl
      have hpcne : pc ≠ [] := by
        rw [hpc]
        simp
      simp [samReply, PRes.andThen, h1, keys_and_values, pSeparatedList, h4,
        if_neg hlen, pSepLoop, hloop, h3, hpcne]

theorem find_map_replace (k v k' : String) : ∀ (m : List (String × String)),
    (m.map (fun p => if p.1 = k then (k, v) else p)).find? (fun p => p.1 = k') =
      if k' = k then ((m.find? (fun p => p.1 = k)).map (fun _ => (k, v)))
      else m.find? (fun p => p.1 = k') := by
  intro m
  induction m with
  | nil => simp
  | cons p m ih =>
    by_cases hp : p.1 = k
    · by_cases hk : k' = k
      · subst hk
        simp [List.find?, hp, ih]
      · have hk2 : ¬(k = k') := fun h => hk h.symm
        simp [List.find?, hp, hk, hk2, ih]
    · by_cases hk : k' = p.1
      · subst hk
        simp [List.find?, hp, ih]
      · have hk2 : ¬(p.1 = k') := fun h => hk h.symm
        simp [List.find?, hp, hk, hk2, ih]

theorem mapGet_hashMapInsert (m : List (String × String)) (k v k' : String) :
    mapGet (hashMapInsert m k v) k' = if k' = k then some v else mapGet m k' := by
  simp only [hashMapInsert, mapGet]
  by_cases hany : m.any (fun p => p.1 = k)
  · rw [if_pos hany, find_map_replace]
    by_cases hk : k' = k
    · subst hk
      simp only [if_pos rfl]
      obtain ⟨p, hp, hpk⟩ := List.any_eq_true.mp hany
      cases hf : m.find? (fun q => q.1 = k') with
      | none =>
        rw [List.find?_eq_none] at hf
        exact absurd hpk (by simpa using hf p hp)
      | some q => simp
    · simp [hk]
  · rw [if_neg hany, List.find?_append]
    by_cases hk : k' = k
    · subst hk
      have hnone : m.find? (fun p => p.1 = k') = none := by
        rw [List.find?_eq_none]
        intro p hp hpk
        exact absurd (List.any_eq_true.mpr ⟨p, hp, hpk⟩) hany
      simp [hnone, List.find?]
    · cases hf : m.find? (fun p => p.1 = k') with
      | none =>
        have hk2 : ¬(k = k') := fun h => hk h.symm
        simp [hf, List.find?, hk2, hk]
      | some q => simp [hf, hk]

theorem mapGet_foldl_insert (k : String) : ∀ (vec : List (String × String))
    (m : List (String × String)),
    mapGet (vec.foldl (fun m p => hashMapInsert m p.1 p.2) m) k =
      match vec.reverse.find? (fun p => p.1 = k) with
      | some p => some p.2
      | none => mapGet m k := by
  intro vec
  induction vec with
  | nil => simp
  | cons p vec ih =>
    intro m
    simp only [List.foldl_cons, List.reverse_cons]
    rw [ih, List.find?_append]
    cases hf : vec.reverse.find? (fun q => q.1 = k) with
    | some q => simp
    | none =>
      simp only [Option.none_orElse]
      by_cases hk : p.1 = k
      · simp [List.find?, hk, mapGet_hashMapInsert]
      · have hk2 : ¬(k = p.1) := fun h => hk h.symm
        simp [List.find?, hk, hk2, mapGet_hashMapInsert]

theorem mapGet_collect_last (vec : List (String × String)) (k : String) :
    mapGet (collectHashMap vec) k =
      (vec.reverse.find? (fun p => p.1 = k)).map (fun p => p.2) := by
  rw [collectHashMap, mapGet_foldl_insert]
  cases hf : vec.reverse.find? (fun p => p.1 = k) with
  | some q => simp
  | none => simp [mapGet]

theorem verify_response_spec (vec : List (String × String)) :
    ((mapGet (collectHashMap vec) "RESULT").getD "OK" = "OK" →
      verify_response vec = .ok (collectHashMap vec))
  ∧ (∀ res, mapGet (collectHashMap vec) "RESULT" = some res →
      res ∉ (["OK", "CANT_REACH_PEER", "KEY_NOT_FOUND", "PEER_NOT_FOUND",
        "DUPLICATED_DEST", "INVALID_KEY", "INVALID_ID", "TIMEOUT",
        "I2P_ERROR"] : List String) →
      verify_response vec =
        .error (.SAMInvalidMessage ((mapGet (collectHashMap vec) "MESSAGE").getD ""))) := by
  constructor
  · intro h
    simp only [verify_response]
    rw [h]
    rfl
  · intro res hres hmem
    simp only [verify_response, hres, Option.getD_some]
    have h1 : res ≠ "OK" := by intro h; exact hmem (by simp [h])
    have h2 : res ≠ "CANT_REACH_PEER" := by intro h; exact hmem (by simp [h])
    have h3 : res ≠ "KEY_NOT_FOUND" := by intro h; exact hmem (by simp [h])
    have h4 : res ≠ "PEER_NOT_FOUND" := by intro h; exact hmem (by simp [h])
    have h5 : res ≠ "DUPLICATED_DEST" := by intro h; exact hmem (by simp [h])
    have h6 : res ≠ "INVALID_KEY" := by intro h; exact hmem (by simp [h])
    have h7 : res ≠ "INVALID_ID" := by intro h; exact hmem (by simp [h])
    have h8 : res ≠ "TIMEOUT" := by intro h; exact hmem (by simp [h])
    have h9 : res ≠ "I2P_ERROR" := by intro h; exact hmem (by simp [h])
    split <;> simp_all

theorem findIdx_beq_mem {c : Char} : ∀ (l : List Char) (s i : Nat),
    List.findIdx? (fun b => b == c) l s = some i → c ∈ l := by
  intro l
  induction l with
  | nil =>
    intro s i h
    simp at h
  | cons a as ih =>
    intro s i h
    rw [List.findIdx?_cons] at h
    by_cases hac : a == c
    · exact List.mem_cons.mpr (Or.inl (beq_iff_eq.mp hac).symm)
    · simp only [hac, if_neg, Bool.false_eq_true, not_false_iff] at h
      exact List.mem_cons.mpr (Or.inr (ih (s + 1) i h))

theorem b64SymIndex_mem {c : Char} {i : Nat} (h : b64SymIndex c = some i) :
    c ∈ base64_i2p_symbols := by
  rw [b64SymIndex, List.indexOf?] at h
  exact findIdx_beq_mem _ 0 i h

theorem b64DecodeFullBlock_mem {b : List Char} {bs : List Nat}
    (h : b64DecodeFullBlock b = some bs) :
    ∀ c ∈ b, c ∈ base64_i2p_symbols := by
  match b with
  | [c1, c2, c3, c4] =>
    simp only [b64DecodeFullBlock, Option.bind_eq_bind, Option.bind_eq_some] at h
    obtain ⟨v1, h1, v2, h2, v3, h3, v4, h4, _⟩ := h
    intro c hc
    simp only [List.mem_cons, List.not_mem_nil, or_false] at hc
    rcases hc with rfl | rfl | rfl | rfl
    · exact b64SymIndex_mem h1
    · exact b64SymIndex_mem h2
    · exact b64SymIndex_mem h3
    · exact b64SymIndex_mem h4
  | [] => simp [b64DecodeFullBlock] at h
  | [c1] => simp [b64DecodeFullBlock] at h
  | [c1, c2] => simp [b64DecodeFullBlock] at h
  | [c1, c2, c3] => simp [b64DecodeFullBlock] at h
  | c1 :: c2 :: c3 :: c4 :: c5 :: cs => simp [b64DecodeFullBlock] at h

theorem b64DecodeLastBlock_mem {b : List Char} {bs : List Nat}
    (h : b64DecodeLastBlock b = some bs) :
    ∀ c ∈ b, c ∈ base64_i2p_symbols ∨ c = '=' := by
  match b with
  | [c1, c2, c3, c4] =>
    intro c hc
    simp only [List.mem_cons, List.not_mem_nil, or_false] at hc
    simp only [b64DecodeLastBlock] at h
    by_cases h4 : c4 = '='
    · rw [if_pos h4] at h
      by_cases h3 : c3 = '='
      · rw [if_pos h3] at h
        simp only [Option.bind_eq_bind, Option.bind_eq_some] at h
        obtain ⟨v1, hv1, v2, hv2, _⟩ := h
        rcases hc with rfl | rfl | rfl | rfl
        · exact Or.inl (b64SymIndex_mem hv1)
        · exact Or.inl (b64SymIndex_mem hv2)
        · exact Or.inr h3
        · exact Or.inr h4
      · rw [if_neg h3] at h
        simp only [Option.bind_eq_bind, Option.bind_eq_some] at h
        obtain ⟨v1, hv1, v2, hv2, v3, hv3, _⟩ := h
        rcases hc with rfl | rfl | rfl | rfl
        · exact Or.inl (b64SymIndex_mem hv1)
        · exact Or.inl (b64SymIndex_mem hv2)
        · exact Or.inl (b64SymIndex_mem hv3)
        · exact Or.inr h4
    · rw [if_neg h4] at h
      rcases hc with rfl | rfl | rfl | rfl <;>
        exact Or.inl (b64DecodeFullBlock_mem h _ (by simp))
  | [] => simp [b64DecodeLastBlock] at h
  | [c1] => simp [b64DecodeLastBlock] at h
  | [c1, c2] => simp [b64DecodeLastBlock] at h
  | [c1, c2, c3] => simp [b64DecodeLastBlock] at h
  | c1 :: c2 :: c3 :: c4 :: c5 :: cs => simp [b64DecodeLastBlock] at h

theorem b64DecodeBlocks_mem : ∀ (blocks : List (List Char)) (bs : List Nat),
    b64DecodeBlocks blocks = some bs →
    ∀ b ∈ blocks, ∀ c ∈ b, c ∈ base64_i2p_symbols ∨ c = '=' := by
  intro blocks
  induction blocks with
  | nil =>
    intro bs h b hb
    simp at hb
  | cons b0 rest ih =>
    intro bs h b hb
    cases rest with
    | nil =>
      simp only [List.mem_singleton] at hb
      subst hb
      simp only [b64DecodeBlocks] at h
      exact b64DecodeLastBlock_mem h
    | cons b1 rest' =>
      simp only [b64DecodeBlocks, Option.bind_eq_bind, Option.bind_eq_some] at h
      obtain ⟨h0, hh0, t, ht, _⟩ := h
      rcases List.mem_cons.mp hb with rfl | hb'
      · intro c hc
        exact Or.inl (b64DecodeFullBlock_mem hh0 c hc)
      · exact ih t ht b hb'

theorem chunkListGo_flatten {α : Type} (n : Nat) : ∀ (fuel : Nat) (l : List α),
    l.length ≤ fuel → (chunkListGo n fuel l).flatten = l := by
  intro fuel
  induction fuel with
  | zero =>
    intro l hl
    rw [Nat.le_zero] at hl
    rw [List.length_eq_zero.mp hl]
    rfl
  | succ f ih =>
    intro l hl
    cases l with
    | nil => rfl
    | cons c cs =>
      simp only [chunkListGo, List.flatten_cons]
      rw [ih (cs.drop n) (by simp only [List.length_drop]; simp only [List.length_cons] at hl; omega)]
      simp

theorem base64_i2p_decode_mem {s : List Char} {bs : List Nat}
    (h : base64_i2p_decode s = some bs) :
    ∀ c ∈ s, c ∈ base64_i2p_symbols ∨ c = '=' := by
  rw [base64_i2p_decode] at h
  by_cases hlen : s.length % 4 = 0
  · rw [if_pos hlen] at h
    intro c hc
    have hflat : (chunkList 4 s).flatten = s := by
      rw [chunkList]
      exact chunkListGo_flatten 3 s.length s (le_refl _)
    rw [← hflat] at hc
    obtain ⟨b, hb, hcb⟩ := List.mem_flatten.mp hc
    exact b64DecodeBlocks_mem _ bs h b hb c hcb
  · rw [if_neg hlen] at h
    simp at h

theorem wfPair_spec {p : List Char × List Char} (h : wfPair p = true) :
    p.1 ≠ [] ∧ (∀ c ∈ p.1, c.isAlphanum = true) ∧
      (∀ c ∈ p.2, is_space_or_next_line c = false) ∧ p.2.head? ≠ some '"' := by
  simp only [wfPair, Bool.and_eq_true, Bool.not_eq_true',
    List.all_eq_true, bne_iff_ne] at h
  obtain ⟨⟨⟨h1, h2⟩, h3⟩, h4⟩ := h
  refine ⟨?_, h2, ?_, h4⟩
  · intro hnil
    rw [hnil] at h1
    simp at h1
  · intro c hc
    simpa using h3 c hc

theorem renderChain_pair_head (ps : List (List Char × List Char)) (rest : List Char) :
    ∃ d ds, renderChain ps ++ '\n' :: rest = d :: ds ∧ is_space_or_next_line d = true := by
  cases ps with
  | nil => exact ⟨'\n', rest, rfl, by decide⟩
  | cons p ps =>
    obtain ⟨k2, v2⟩ := p
    refine ⟨' ', (k2 ++ '=' :: v2 ++ renderChain ps) ++ '\n' :: rest, ?_, by decide⟩
    simp [renderChain]

theorem GPairR_render (k v : List Char) (cont : List Char)
    (hk : k ≠ []) (hka : ∀ c ∈ k, c.isAlphanum = true)
    (hv : ∀ c ∈ v, is_space_or_next_line c = false) (hq : v.head? ≠ some '"')
    (d : Char) (ds : List Char) (hcont : cont = d :: ds)
    (hd : is_space_or_next_line d = true) :
    GPairR (k ++ '=' :: v) (k, v) cont := by
  subst hcont
  exact GPairR.mk k v v (d :: ds) hk hka (GValR.bare v d ds hv hq hd)

theorem GChain_render : ∀ (ps : List (List Char × List Char)) (rest : List Char),
    ps.all wfPair = true → GChain (renderChain ps ++ '\n' :: rest) ps rest := by
  intro ps
  induction ps with
  | nil =>
    intro rest _
    exact GChain.nil rest
  | cons p ps ih =>
    intro rest h
    rw [List.all_cons, Bool.and_eq_true] at h
    obtain ⟨k, v⟩ := p
    obtain ⟨hk, hka, hv, hq⟩ := wfPair_spec h.1
    obtain ⟨d, ds, hcont, hd⟩ := renderChain_pair_head ps rest
    have hch := ih rest h.2
    have := GChain.cons [' '] (k ++ '=' :: v) (renderChain ps ++ '\n' :: rest)
      (k, v) ps rest (by simp) (by intro c hc; simp at hc; subst hc; decide)
      (GPairR_render k v _ hk hka hv hq d ds hcont hd) hch
    simpa [renderChain, List.append_assoc] using this

theorem GBody_render (ps : List (List Char × List Char)) (rest : List Char)
    (h : ps.all wfPair = true) : GBody (renderBody ps ++ '\n' :: rest) ps rest := by
  cases ps with
  | nil => exact GBody.empty rest
  | cons p ps =>
    rw [List.all_cons, Bool.and_eq_true] at h
    obtain ⟨k, v⟩ := p
    obtain ⟨hk, hka, hv, hq⟩ := wfPair_spec h.1
    obtain ⟨d, ds, hcont, hd⟩ := renderChain_pair_head ps rest
    have hch := GChain_render ps rest h.2
    have := GBody.pairs (k ++ '=' :: v) (renderChain ps ++ '\n' :: rest)
      (k, v) ps rest (GPairR_render k v _ hk hka hv hq d ds hcont hd) hch
    simpa [renderBody, List.append_assoc] using this

/-! ## The claims -/

/-- C1: `I2pAddr::from_b64` succeeds exactly when the input decodes under
the I2P base-64 alphabet with `'='` padding, failing with
`BadAddressEncoding(s)` otherwise (in particular whenever a character is
outside the alphabet), and on success stores the unpadded lowercase
base-32 encoding of the SHA-256 digest of the decoded bytes with the
literal suffix `".b32.i2p"` appended. -/
theorem from_b64_spec (s : String) :
    ((I2pAddr.from_b64 s).isOk ↔ (base64_i2p_decode s.data).isSome)
  ∧ (∀ bin, base64_i2p_decode s.data = some bin →
      I2pAddr.from_b64 s =
        .ok ⟨String.mk (base32_i2p_encode (sha256 bin)) ++ ".b32.i2p"⟩)
  ∧ (base64_i2p_decode s.data = none →
      I2pAddr.from_b64 s = .error (.BadAddressEncoding s))
  ∧ ((∃ c ∈ s.data, c ∉ base64_i2p_symbols ∧ c ≠ '=') →
      I2pAddr.from_b64 s = .error (.BadAddressEncoding s)) := by
  have hchar : (∃ c ∈ s.data, c ∉ base64_i2p_symbols ∧ c ≠ '=') →
      base64_i2p_decode s.data = none := by
    rintro ⟨c, hc, hnm, hne⟩
    cases hd : base64_i2p_decode s.data with
    | none => rfl
    | some bs =>
      rcases base64_i2p_decode_mem hd c hc with hmem | heq
      · exact absurd hmem hnm
      · exact absurd heq hne
  cases hd : base64_i2p_decode s.data with
  | some bin =>
    refine ⟨by simp [I2pAddr.from_b64, hd, B32_EXT, Except.isOk, Except.toBool], ?_, ?_, ?_⟩
    · intro bin2 hbin2
      obtain rfl := Option.some.inj hbin2
      simp [I2pAddr.from_b64, hd, B32_EXT]
    · intro hnone
      exact absurd hnone (by simp)
    · intro hex
      exact absurd (hchar hex) (by simp [hd])
  | none =>
    refine ⟨by simp [I2pAddr.from_b64, hd, Except.isOk, Except.toBool], ?_, ?_, ?_⟩
    · intro bin2 hbin2
      exact absurd hbin2 (by simp)
    · intro _
      simp [I2pAddr.from_b64, hd]
    · intro _
      simp [I2pAddr.from_b64, hd]

set_option maxRecDepth 10000 in
/-- C1 witness: a non-alphabet input fails with `BadAddressEncoding` and
the empty destination hashes to the expected `.b32.i2p` form. -/
theorem from_b64_spec_witness :
    I2pAddr.from_b64 "%%%%" = .error (.BadAddressEncoding "%%%%") ∧
    I2pAddr.from_b64 "" =
      .ok ⟨"4oymiquy7qobjgx36tejs35zeqt24qpemsnzgtfeswmrw6csxbkq.b32.i2p"⟩ :=
  ⟨(from_b64_spec "%%%%").2.2.2 ⟨'%', by decide, by decide, by decide⟩,
   ((from_b64_spec "").2.1 [] (by decide)).trans (by decide)⟩

/-- C10: `set_port` changes only the port and `set_dest` changes only the
destination of an `I2pSocketAddr`. -/
theorem set_port_set_dest_frame (a : I2pSocketAddr) (p : Nat) (d : I2pAddr) :
    (a.set_port p).dest = a.dest ∧ (a.set_port p).port = p ∧
    (a.set_dest d).port = a.port ∧ (a.set_dest d).dest = d :=
  ⟨rfl, rfl, rfl, rfl⟩

/-- C2 (amended): `verify_response` succeeds returning the map when
`RESULT` is absent or `"OK"`; it fails with a distinct typed variant for
each of the eight codes `CANT_REACH_PEER`, `KEY_NOT_FOUND`,
`PEER_NOT_FOUND`, `DUPLICATED_DEST`, `INVALID_KEY`, `INVALID_ID`,
`TIMEOUT` and `I2P_ERROR`, and with the catch-all `SAMInvalidMessage`
for every other value (including `DUPLICATED_ID`, `NOVERSION` and
`ALREADY_ACCEPTING`); each error carries `MESSAGE` verbatim when present
and `""` otherwise. -/
theorem verify_response_codes (vec : List (String × String)) :
    (mapGet (collectHashMap vec) "RESULT" = none →
      verify_response vec = .ok (collectHashMap vec))
  ∧ (mapGet (collectHashMap vec) "RESULT" = some "OK" →
      verify_response vec = .ok (collectHashMap vec))
  ∧ (∀ msg, (mapGet (collectHashMap vec) "MESSAGE").getD "" = msg →
      (mapGet (collectHashMap vec) "RESULT" = some "CANT_REACH_PEER" →
        verify_response vec = .error (.SAMCantReachPeer msg))
    ∧ (mapGet (collectHashMap vec) "RESULT" = some "KEY_NOT_FOUND" →
        verify_response vec = .error (.SAMKeyNotFound msg))
    ∧ (mapGet (collectHashMap vec) "RESULT" = some "PEER_NOT_FOUND" →
        verify_response vec = .error (.SAMPeerNotFound msg))
    ∧ (mapGet (collectHashMap vec) "RESULT" = some "DUPLICATED_DEST" →
        verify_response vec = .error (.SAMDuplicatedDest msg))
    ∧ (mapGet (collectHashMap vec) "RESULT" = some "INVALID_KEY" →
        verify_response vec = .error (.SAMInvalidKey msg))
    ∧ (mapGet (collectHashMap vec) "RESULT" = some "INVALID_ID" →
        verify_response vec = .error (.SAMInvalidId msg))
    ∧ (mapGet (collectHashMap vec) "RESULT" = some "TIMEOUT" →
        verify_response vec = .error (.SAMTimeout msg))
    ∧ (mapGet (collectHashMap vec) "RESULT" = some "I2P_ERROR" →
        verify_response vec = .error (.SAMI2PError msg))
    ∧ (∀ res, mapGet (collectHashMap vec) "RESULT" = some res →
        res ∉ (["OK", "CANT_REACH_PEER", "KEY_NOT_FOUND", "PEER_NOT_FOUND",
          "DUPLICATED_DEST", "INVALID_KEY", "INVALID_ID", "TIMEOUT",
          "I2P_ERROR"] : List String) →
        verify_response vec = .error (.SAMInvalidMessage msg))) := by
  refine ⟨?_, ?_, ?_⟩
  · intro h
    simp only [verify_response, h, Option.getD_none]
  · intro h
    simp only [verify_response, h, Option.getD_some]
  · rintro msg rfl
    refine ⟨?_, ?_, ?_, ?_, ?_, ?_, ?_, ?_, ?_⟩ <;>
      first
      | (intro h
         simp only [verify_response, h, Option.getD_some])
      | (intro res hres hmem
         exact (verify_response_spec vec).2 res hres hmem)

/-- C2 witness: concrete instances of the success case, a distinct-variant
case and the catch-all case. -/
theorem verify_response_codes_witness :
    verify_response [("RESULT", "OK"), ("X", "y")] =
      .ok [("RESULT", "OK"), ("X", "y")] ∧
    verify_response [("RESULT", "TIMEOUT"), ("MESSAGE", "m")] =
      .error (.SAMTimeout "m") ∧
    verify_response [("RESULT", "NOVERSION")] =
      .error (.SAMInvalidMessage "") :=
  ⟨((verify_response_codes [("RESULT", "OK"), ("X", "y")]).2.1 (by decide)).trans
      (by decide),
   ((verify_response_codes [("RESULT", "TIMEOUT"), ("MESSAGE", "m")]).2.2 "m"
      (by decide)).2.2.2.2.2.2.1 (by decide),
   ((verify_response_codes [("RESULT", "NOVERSION")]).2.2 "" (by decide)).2.2.2.2.2.2.2.2
      "NOVERSION" (by decide) (by decide)⟩

/-- C2 counterexample: `DUPLICATED_ID`, `NOVERSION` and
`ALREADY_ACCEPTING` all collapse to the single `SAMInvalidMessage`
variant, so there is no distinct variant per documented RESULT code. -/
theorem verify_response_codes_counterexample :
    verify_response [("RESULT", "DUPLICATED_ID")] = .error (.SAMInvalidMessage "") ∧
    verify_response [("RESULT", "NOVERSION")] = .error (.SAMInvalidMessage "") ∧
    verify_response [("RESULT", "ALREADY_ACCEPTING")] = .error (.SAMInvalidMessage "") := by
  decide

/-- C3: at nickname `nick`, destination `dest` and port 80 the request
built by `StreamConnect::with_session` carries the `TO_PORT` token after
a first newline and ends with a second newline, and at port 0 it ends
with two newlines — not a single line with `TO_PORT` before its only
newline as specified. -/
theorem stream_connect_msg_newline_bug :
    stream_connect_msg "nick" "dest" 80 =
      "STREAM CONNECT ID=nick DESTINATION=dest SILENT=false\n TO_PORT=80\n" ∧
    stream_connect_msg "nick" "dest" 0 =
      "STREAM CONNECT ID=nick DESTINATION=dest SILENT=false\n\n" := by
  decide

/-- C4: the option string rendered from `SAMOptions::default()` is
exactly `" i2cp.leaseSetEncType=4,0 "`: it contains the token
`i2cp.leaseSetEncType=4,0` but no `SIGNATURE_TYPE` token at all, because
`ToString for SAMOptions` never renders the `signature_type` field. -/
theorem default_options_signature_type_missing :
    SAMOptions.toOptionString SAMOptions.default = " i2cp.leaseSetEncType=4,0 " ∧
    containsSub "i2cp.leaseSetEncType=4,0".data
      (SAMOptions.toOptionString SAMOptions.default).data = true ∧
    containsSub "SIGNATURE_TYPE=EdDSA_SHA512_Ed25519".data
      (SAMOptions.toOptionString SAMOptions.default).data = false ∧
    containsSub "SIGNATURE_TYPE".data
      (SAMOptions.toOptionString SAMOptions.default).data = false := by
  decide

/-- C7: the `length_variance` branches render `inbound.lengthVariance1`
and `outbound.lengthVariance-2` with no `=` between key and value, so
the rendered string is not a sequence of `key=value` tokens. -/
theorem length_variance_token_missing_equals :
    SAMOptions.toOptionString inboundLengthVarianceOptions =
      " inbound.lengthVariance1 " ∧
    SAMOptions.toOptionString outboundLengthVarianceOptions =
      " outbound.lengthVariance-2 " ∧
    containsSub "inbound.lengthVariance=".data
      (SAMOptions.toOptionString inboundLengthVarianceOptions).data = false ∧
    containsSub "=".data "inbound.lengthVariance1".data = false := by
  decide

/-- C5 (amended): the destination-line processing of
`StreamForward::accept` takes the text of the line before its first
space character and trims whitespace from it; an empty token fails with
`SAMKeyNotFound("No b64 destination in accept")`, a token that does not
decode under the I2P base-64 alphabet fails with
`BadAddressEncoding(token)`, and otherwise the call returns the stream
fields with `peer_dest` the token and both ports `0`, paired with the
derived `.b32.i2p` socket address at port `0` (any `FROM_PORT`/`TO_PORT`
tail after the first space is ignored). -/
theorem accept_process_line_spec (line : String) :
    (String.mk (rustTrim ((splitChar ' ' line.data).headD [])) = "" →
      accept_process_line line =
        .error (.SAMKeyNotFound "No b64 destination in accept"))
  ∧ (∀ tok, String.mk (rustTrim ((splitChar ' ' line.data).headD [])) = tok →
      tok ≠ "" →
      (base64_i2p_decode tok.data = none →
        accept_process_line line = .error (.BadAddressEncoding tok))
    ∧ (∀ bin, base64_i2p_decode tok.data = some bin →
        accept_process_line line =
          .ok ({ peer_dest := tok, peer_port := 0, local_port := 0 },
            I2pSocketAddr.new
              ⟨String.mk (base32_i2p_encode (sha256 bin)) ++ ".b32.i2p"⟩ 0))) := by
  constructor
  · intro h
    simp only [accept_process_line, h]
    rfl
  · rintro tok rfl hne
    constructor
    · intro hdec
      simp only [accept_process_line, if_neg hne, I2pAddr.from_b64, hdec]
      rfl
    · intro bin hdec
      simp only [accept_process_line, if_neg hne, I2pAddr.from_b64, hdec, B32_EXT]
      rfl

set_option maxRecDepth 10000 in
/-- C5 witness: a line whose token does not decode fails with
`BadAddressEncoding`, and a decodable token yields the stream/address
pair with port 0, ignoring the `FROM_PORT` tail. -/
theorem accept_process_line_spec_witness :
    accept_process_line "x\n" = .error (.BadAddressEncoding "x") ∧
    accept_process_line "TWFu FROM_PORT=1 TO_PORT=2\n" =
      .ok ({ peer_dest := "TWFu", peer_port := 0, local_port := 0 },
        I2pSocketAddr.new
          ⟨"ed7bxuqbzwiaxw775lwawqxebni4x5vtpls7x2w53a5kxgrcda3q.b32.i2p"⟩ 0) :=
  ⟨((accept_process_line_spec "x\n").2 "x" (by decide) (by decide)).1 (by decide),
   (((accept_process_line_spec "TWFu FROM_PORT=1 TO_PORT=2\n").2 "TWFu" (by decide)
      (by decide)).2 [77, 97, 110] (by decide)).trans (by decide)⟩

/-- C5 counterexample: on the line `"a\tb c\n"` the code's token is the
trimmed first space-field `"a\tb"` — not the first whitespace-delimited
token `"a"` — and since it is not valid base-64 the call fails with
`BadAddressEncoding "a\tb"` instead of returning a stream/address
pair. -/
theorem accept_process_line_counterexample :
    accept_process_line "a\tb c\n" = .error (.BadAddressEncoding "a\tb") := by
  decide

/-- C6 (amended): the lookup map `verify_response` builds associates every
duplicated key with the value of its last occurrence in the pair list —
the last wins on lookup — while the reply parsers return all pairs in
input order (a rendered pair list parses back to itself, in order). -/
theorem duplicate_keys_last_wins (vec : List (String × String)) (k : String)
    (tagLit : List Char) (ps : List (List Char × List Char)) :
    (mapGet (collectHashMap vec) k =
      (vec.reverse.find? (fun p => p.1 = k)).map (fun p => p.2))
  ∧ (ps.all wfPair = true →
      samReply tagLit (tagLit ++ (renderBody ps ++ ['\n'])) = .done [] ps) := by
  constructor
  · exact mapGet_collect_last vec k
  · intro hwf
    exact (samReply_done_iff tagLit _ [] ps).mpr
      ⟨renderBody ps ++ ['\n'], rfl, GBody_render ps [] hwf⟩

/-- C6 witness: with `RESULT` bound twice the lookup yields the second
value, and a two-pair rendering parses back in order. -/
theorem duplicate_keys_last_wins_witness :
    mapGet (collectHashMap [("RESULT", "I2P_ERROR"), ("RESULT", "OK")]) "RESULT" =
      some "OK" ∧
    samReply "HELLO REPLY ".data
        ("HELLO REPLY ".data ++ (renderBody [("A".data, "1".data), ("A".data, "2".data)] ++ ['\n'])) =
      .done [] [("A".data, "1".data), ("A".data, "2".data)] :=
  ⟨(duplicate_keys_last_wins [("RESULT", "I2P_ERROR"), ("RESULT", "OK")] "RESULT"
      [] []).1.trans (by decide),
   (duplicate_keys_last_wins [] "" "HELLO REPLY ".data
      [("A".data, "1".data), ("A".data, "2".data)]).2 (by decide)⟩

/-- C6 counterexample: with `RESULT` listed first as `I2P_ERROR` and then
as `OK`, `verify_response` succeeds — the last occurrence wins on lookup,
not the first as claimed (first-wins would fail with `SAMI2PError`). -/
theorem duplicate_keys_counterexample :
    verify_response [("RESULT", "I2P_ERROR"), ("RESULT", "OK")] =
      .ok [("RESULT", "OK")] := by
  decide

/-- C8 (amended): each of the five reply parsers accepts exactly the
inputs consisting of its two-word tag and one space, zero or more
`KEY=VALUE` pairs separated by runs of one or more spaces or tabs
(keys one or more ASCII alphanumerics; values bare — free of space, tab
and newline and not beginning with `"` — or double-quoted with body free
of `"`), and a terminating newline (further input beyond it is left
unconsumed); every deviation — missing or misspelled tag, unterminated
quote, junk before the newline — is rejected, and every rejection
surfaces through `SamConnection::send` as the `MessageParsing` error. -/
theorem sam_reply_parsers_language (s : String) (rest : List Char)
    (ps : List (List Char × List Char)) :
    (sam_hello s.data = .done rest ps ↔ GReply "HELLO REPLY ".data s.data ps rest)
  ∧ (sam_session_status s.data = .done rest ps ↔
      GReply "SESSION STATUS ".data s.data ps rest)
  ∧ (sam_stream_status s.data = .done rest ps ↔
      GReply "STREAM STATUS ".data s.data ps rest)
  ∧ (sam_naming_reply s.data = .done rest ps ↔
      GReply "NAMING REPLY ".data s.data ps rest)
  ∧ (sam_dest_reply s.data = .done rest ps ↔
      GReply "DEST REPLY ".data s.data ps rest)
  ∧ (∀ rp : List Char → PRes (List (List Char × List Char)),
      ∀ e, parse_reply rp s = .error e → e = .MessageParsing) := by
  refine ⟨samReply_done_iff _ _ _ _, samReply_done_iff _ _ _ _,
    samReply_done_iff _ _ _ _, samReply_done_iff _ _ _ _,
    samReply_done_iff _ _ _ _, ?_⟩
  intro rp e h
  simp only [parse_reply] at h
  cases hc : rp s.data with
  | done r v =>
    rw [hc] at h
    simp at h
  | failed =>
    rw [hc] at h
    exact (Except.error.inj h).symm
  | incomplete =>
    rw [hc] at h
    exact (Except.error.inj h).symm

/-- C8 witness: a well-formed `HELLO REPLY` line is in the grammar, and a
line with a misspelled tag surfaces as `MessageParsing`. -/
theorem sam_reply_parsers_language_witness :
    GReply "HELLO REPLY ".data "HELLO REPLY RESULT=OK\n".data
      [("RESULT".data, "OK".data)] [] ∧
    parse_reply sam_hello "HELLOREPLY RESULT=OK\n" = .error .MessageParsing :=
  ⟨(sam_reply_parsers_language "HELLO REPLY RESULT=OK\n" []
      [("RESULT".data, "OK".data)]).1.mp (by decide),
   by decide⟩

/-- C8 counterexample: a double space between pairs is accepted (nom's
`space1` separator takes one or more spaces/tabs), so the parsers do not
fail on every deviation from single spacing. -/
theorem sam_reply_double_space_counterexample :
    sam_hello "HELLO REPLY RESULT=OK  VERSION=3.1\n".data =
      .done [] [("RESULT".data, "OK".data), ("VERSION".data, "3.1".data)] ∧
    parse_reply sam_hello "HELLO REPLY RESULT=OK  VERSION=3.1\n" =
      .ok [("RESULT", "OK"), ("VERSION", "3.1")] := by
  decide

/-- C9 (amended): `SamSessionWatcher::accept` returns the listener's
result unchanged on success; on an accept error it returns no success
value, and — when the control-socket shutdown and the rebuild both
succeed — replaces session and listener with the freshly built pair and
returns `SessionRecreated`; if the shutdown or the rebuild itself fails,
that error is returned instead and the state is left unchanged. -/
theorem watcher_accept_spec {S L A : Type} (w : SamSessionWatcher S L)
    (ar : Except I2PError A) (sr : Except I2PError Unit)
    (rr : Except I2PError (S × L)) :
    (∀ res, ar = .ok res → SamSessionWatcher.accept w ar sr rr = (w, .ok res))
  ∧ (∀ e, ar = .error e →
      ((∀ res, (SamSessionWatcher.accept w ar sr rr).2 ≠ .ok res)
      ∧ (∀ s l, sr = .ok () → rr = .ok (s, l) →
          SamSessionWatcher.accept w ar sr rr =
            ({ w with session := s, listener := l }, .error .SessionRecreated))
      ∧ (∀ e2, sr = .error e2 →
          SamSessionWatcher.accept w ar sr rr = (w, .error e2))
      ∧ (∀ e2, sr = .ok () → rr = .error e2 →
          SamSessionWatcher.accept w ar sr rr = (w, .error e2)))) := by
  constructor
  · rintro res rfl
    rfl
  · rintro e rfl
    refine ⟨?_, ?_, ?_, ?_⟩
    · intro res
      cases sr with
      | error e2 => simp [SamSessionWatcher.accept]
      | ok u =>
        cases rr with
        | error e2 => simp [SamSessionWatcher.accept]
        | ok p =>
          obtain ⟨s, l⟩ := p
          simp [SamSessionWatcher.accept]
    · rintro s l rfl rfl
      rfl
    · rintro e2 rfl
      rfl
    · rintro e2 rfl rfl
      rfl

/-- C9 witness: on an accept error with shutdown and rebuild succeeding,
the watcher installs the new session and listener and returns
`SessionRecreated`; on success the result is passed through. -/
theorem watcher_accept_spec_witness :
    SamSessionWatcher.accept (A := Unit) watcher0 (.error .MessageParsing)
        (.ok ()) (.ok (1, 2)) =
      ({ watcher0 with session := 1, listener := 2 }, .error .SessionRecreated) ∧
    SamSessionWatcher.accept (A := Unit) watcher0 (.ok ()) (.ok ()) (.ok (1, 2)) =
      (watcher0, .ok ()) :=
  ⟨((watcher_accept_spec watcher0 (.error .MessageParsing) (.ok ())
      (.ok (1, 2))).2 .MessageParsing rfl).2.1 1 2 rfl rfl,
   (watcher_accept_spec watcher0 (.ok ()) (.ok ()) (.ok (1, 2))).1 () rfl⟩

/-- C9 counterexample: when the shutdown of the old session's socket
fails, its error — not `SessionRecreated` — is returned, and the watcher
state (in particular the old listener) is left in place. -/
theorem watcher_shutdown_error_counterexample :
    SamSessionWatcher.accept (A := Unit) watcher0 (.error .MessageParsing)
        (.error (.IoError "shutdown failed")) (.ok (1, 2)) =
      (watcher0, .error (.IoError "shutdown failed")) ∧
    (SamSessionWatcher.accept (A := Unit) watcher0 (.error .MessageParsing)
        (.error (.IoError "shutdown failed")) (.ok (1, 2))).2 ≠
      .error I2PError.SessionRecreated := by
  constructor
  · rfl
  · decide
